import Mathlib

/-!
# lakeFS bootstrap program (`main.go`)

A shallow embedding of `main.go`: the four functions `home`, `createCreds`, `Run`, `keys`
and `main`, written over an explicit record of the outcomes of every collaborator call
(`World`).  Running a function yields the ordered list of collaborator calls it made,
each with the error it returned, and the way the function ended (normal return, panic,
or blocked inside a call that never returns).

Values built by collaborator constructors (`store.NewKVStore`, `index.NewKVIndex`, ...)
are kept symbolic (`Val`), so that "is constructed over" and "is an input to" are
statements about the arguments of those constructor calls.
-/

namespace LakeFS

/-! ## Data model -/

/-- A non-nil Go error value.  A Go value of interface type error is an
`Option GoError`, with nil being `none`. -/
structure GoError where
  msg : String
  deriving DecidableEq, Repr

/-- The value a panic carries: the argument of an explicit `panic(err)` call (an error
interface value, possibly nil), or the runtime error of an out-of-range index. -/
inductive PanicVal
  | value (err : Option GoError)
  | indexOutOfRange (index len : Nat)
  deriving DecidableEq, Repr

/-- Values of `badger.Options`: the result of `badger.DefaultOptions(path)`, or an options
value further changed by one of badger's builder methods (main.go uses none of them). -/
inductive Options
  | DefaultOptions (path : String)
  | With (o : Options) (field value : String)
  deriving DecidableEq, Repr

/-- Symbolic run-time values: handles returned by the environment (`DB`, `Adapter`) and
the results of the collaborator constructors applied to their arguments. -/
inductive Val
  | DB (id : Nat)
  | Adapter (id : Nat)
  | KVStore (db : Val)
  | KVIndex (store : Val)
  | KVMultipartManager (store : Val)
  | KVAuthService (db : Val)
  | Server (region : String) (meta blockStore authService mpu : Val)
      (listenAddr bareDomain : String)
  deriving DecidableEq, Repr

/-- The direct inputs of a constructed value. -/
def Val.inputs : Val → List Val
  | .DB _ => []
  | .Adapter _ => []
  | .KVStore db => [db]
  | .KVIndex s => [s]
  | .KVMultipartManager s => [s]
  | .KVAuthService db => [db]
  | .Server _ m b a p _ _ => [m, b, a, p]

/-- The value `y` is an input to the construction of `x`: it is one of the arguments
`x` was built from, or an input to the construction of one of them. -/
def Val.isInputOf (y : Val) : Val → Bool
  | .DB _ => false
  | .Adapter _ => false
  | .KVStore db => db == y || Val.isInputOf y db
  | .KVIndex s => s == y || Val.isInputOf y s
  | .KVMultipartManager s => s == y || Val.isInputOf y s
  | .KVAuthService db => db == y || Val.isInputOf y db
  | .Server _ m b a p _ _ =>
      m == y || Val.isInputOf y m || b == y || Val.isInputOf y b ||
      a == y || Val.isInputOf y a || p == y || Val.isInputOf y p

/-- The permission constants of package `gateway/permissions` that main.go names. -/
inductive Permission
  | PermissionManageRepos
  | PermissionReadRepo
  | PermissionWriteRepo
  deriving DecidableEq, Repr

/-- Go struct `model.Policy`. -/
structure Policy where
  Permission : Permission
  Arn : String
  deriving DecidableEq, Repr

/-- Go struct `model.Role`. -/
structure Role where
  Id : String
  Name : String
  Policies : List Policy
  deriving DecidableEq, Repr

/-- Go struct `model.User`; a field left out of a composite literal is the empty string. -/
structure User where
  Id : String
  Email : String := ""
  FullName : String := ""
  deriving DecidableEq, Repr

/-- The credentials returned by `CreateUserCredentials`, read through
`GetAccessKeyId` and `GetAccessSecretKey`. -/
structure Creds where
  AccessKeyId : String
  AccessSecretKey : String
  deriving DecidableEq, Repr

/-- The package-level variables of main.go, set once before `main` starts. -/
structure Globals where
  DefaultBlockLocation : String
  DefaultMetadataLocation : String
  deriving DecidableEq, Repr

/-- How `server.Listen()` ends: it serves forever, or it returns an error value
(possibly nil). -/
inductive ListenResult
  | blocks
  | returns (err : Option GoError)
  deriving DecidableEq, Repr

/-! ## Collaborator calls and traces -/

/-- The calls main.go makes, with their arguments. -/
inductive Call
  | fn (name : String)
  | userCurrent
  | logSetReportCaller (b : Bool)
  | logSetFormatter (forceColors fullTimestamp : Bool)
  | logSetOutput (out : String)
  | logSetLevel (level : String)
  | filepathGlob (pattern : String)
  | osRemove (name : String)
  | badgerOpen (opts : Options)
  | NewKVStore (db : Val)
  | NewKVIndex (store : Val)
  | NewKVMultipartManager (store : Val)
  | NewLocalFSAdapter (path : String)
  | NewKVAuthService (db : Val)
  | NewServer (region : String) (meta blockStore authService mpu : Val)
      (listenAddr bareDomain : String)
  | Listen (server : Val)
  | CreateUser (authService : Val) (u : User)
  | CreateRole (authService : Val) (r : Role)
  | AssignRoleToUser (authService : Val) (roleId userId : String)
  | CreateUserCredentials (authService : Val) (u : User)
  | Printf (format : String) (args : List String)
  | View (db : Val)
  | NewIterator (prefetchValues : Bool)
  | iterClose
  | Close (db : Val)
  deriving DecidableEq, Repr

/-- The symbolic values handed to a call (receiver included). -/
def Call.args : Call → List Val
  | .NewKVStore db => [db]
  | .NewKVIndex s => [s]
  | .NewKVMultipartManager s => [s]
  | .NewKVAuthService db => [db]
  | .NewServer _ m b a p _ _ => [m, b, a, p]
  | .Listen s => [s]
  | .CreateUser a _ => [a]
  | .CreateRole a _ => [a]
  | .AssignRoleToUser a _ _ => [a]
  | .CreateUserCredentials a _ => [a]
  | .View db => [db]
  | .Close db => [db]
  | _ => []

/-- The collaborator calls whose error result main.go inspects: `badger.Open`,
`CreateUser`, `CreateRole`, `AssignRoleToUser`, `CreateUserCredentials`, `filepath.Glob`,
`os.Remove`, `block.NewLocalFSAdapter`, `db.View`, `db.Close` and `server.Listen`. -/
def Call.isFallible : Call → Bool
  | .badgerOpen _ => true
  | .CreateUser _ _ => true
  | .CreateRole _ _ => true
  | .AssignRoleToUser _ _ _ => true
  | .CreateUserCredentials _ _ => true
  | .filepathGlob _ => true
  | .osRemove _ => true
  | .NewLocalFSAdapter _ => true
  | .View _ => true
  | .Close _ => true
  | .Listen _ => true
  | _ => false

/-- One entry of a trace: a call and the error value it returned (`none` for nil, and
for calls that return no error). -/
structure Step where
  call : Call
  err : Option GoError
  deriving DecidableEq, Repr

/-- How a function ended. -/
inductive Outcome (α : Type)
  | returned (a : α)
  | panicked (v : PanicVal)
  | blocked
  deriving DecidableEq, Repr

/-- The result of running Go code: the calls made, in order, and how it ended. -/
structure Go (α : Type) where
  trace : List Step
  outcome : Outcome α

/-- Sequencing: the second part runs only when the first returned normally. -/
def Go.bind {α β : Type} (m : Go α) (f : α → Go β) : Go β :=
  match m.outcome with
  | .returned a => ⟨m.trace ++ (f a).trace, (f a).outcome⟩
  | .panicked v => ⟨m.trace, .panicked v⟩
  | .blocked => ⟨m.trace, .blocked⟩

instance : Monad Go where
  pure a := ⟨[], .returned a⟩
  bind := Go.bind

/-- The Go builtin `panic`. -/
def panic {α : Type} (v : PanicVal) : Go α := ⟨[], .panicked v⟩

/-- A call that returns `a` together with the error value `err`. -/
def call {α : Type} (c : Call) (err : Option GoError) (a : α) : Go α :=
  ⟨[⟨c, err⟩], .returned a⟩

/-- The error component of a `(value, error)` result. -/
def errOf {α : Type} : Except GoError α → Option GoError
  | .error e => some e
  | .ok _ => none

/-- A call with a `(value, error)` result. -/
def callE {α : Type} (c : Call) (r : Except GoError α) : Go (Except GoError α) :=
  ⟨[⟨c, errOf r⟩], .returned r⟩

/-- The outcomes of everything main.go asks of its environment.  `osRemove i name` is the
result of the `i`-th `os.Remove` call (counting from 0) when it is given `name`;
`Printf i` is the error returned by the `i`-th `fmt.Printf` call of a function.
`badgerOpen` and `NewLocalFSAdapter` return the identity of the handle they create. -/
structure World where
  GOOS : String
  Args : List String
  userCurrent : Except GoError String
  pathJoin : List String → String
  filepathGlob : String → Except GoError (List String)
  osRemove : Nat → String → Option GoError
  badgerOpen : Options → Except GoError Nat
  NewLocalFSAdapter : String → Except GoError Nat
  CreateUser : User → Option GoError
  CreateRole : Role → Option GoError
  AssignRoleToUser : String → String → Option GoError
  CreateUserCredentials : User → Except GoError Creds
  Printf : Nat → Option GoError
  dbKeys : List String
  KeyFromBytes : String → String
  View : Option GoError
  Close : Option GoError
  Listen : ListenResult

/-! ## The functions of main.go -/

/-- Go `home`: the home directory of the current user; panics when it cannot be found. -/
def home (w : World) : Go String := do
  match ← callE .userCurrent w.userCurrent with
  | .error err => panic (.value (some err))
  | .ok homeDir => pure homeDir

/-- The initialisation of the package-level `var` block. -/
def initVars (w : World) : Go Globals := do
  let h1 ← home w
  let DefaultBlockLocation := w.pathJoin [h1, "tv_state", "blocks"]
  let h2 ← home w
  let DefaultMetadataLocation := w.pathJoin [h2, "tv_state", "kv"]
  pure ⟨DefaultBlockLocation, DefaultMetadataLocation⟩

/-- The role literal that `createCreds` passes to `CreateRole`. -/
def adminRole : Role :=
  { Id := "examplerid"
    Name := "AdminRole"
    Policies := [
      { Permission := .PermissionManageRepos, Arn := "arn:treeverse:repos:::*" },
      { Permission := .PermissionReadRepo, Arn := "arn:treeverse:repos:::*" },
      { Permission := .PermissionWriteRepo, Arn := "arn:treeverse:repos:::*" } ] }

/-- Go `createCreds`. -/
def createCreds (w : World) (g : Globals) : Go Unit := do
  -- init db
  let opts := Options.DefaultOptions g.DefaultMetadataLocation
  match ← callE (.badgerOpen opts) (w.badgerOpen opts) with
  | .error err => panic (.value (some err))
  | .ok id =>
    let db := Val.DB id
    -- init auth
    let authService ← call (.NewKVAuthService db) none (Val.KVAuthService db)
    let user : User := { Id := "exampleuid", Email := "ozkatz100@gmail.com", FullName := "Oz Katz" }
    match ← call (.CreateUser authService user) (w.CreateUser user) (w.CreateUser user) with
    | some err => panic (.value (some err))
    | none =>
      match ← call (.CreateRole authService adminRole) (w.CreateRole adminRole)
          (w.CreateRole adminRole) with
      | some err => panic (.value (some err))
      | none =>
        let err := w.AssignRoleToUser "examplerid" "exampleuid"
        match ← call (.AssignRoleToUser authService "examplerid" "exampleuid") err err with
        | some err => panic (.value (some err))
        | none =>
          let u : User := { Id := "exampleuid" }
          match ← callE (.CreateUserCredentials authService u) (w.CreateUserCredentials u) with
          | .error err => panic (.value (some err))
          | .ok creds =>
            call (.Printf "creds:\naccess: %s\nsecret: %s\n"
              [creds.AccessKeyId, creds.AccessSecretKey]) (w.Printf 0) ()

/-- The loop `for _, fileName := range logFilesList` of `Run`, from the `i`-th
`os.Remove` call on. -/
def removeAll (w : World) : Nat → List String → Go Unit
  | _, [] => pure ()
  | i, fileName :: rest => do
    match ← call (.osRemove fileName) (w.osRemove i fileName) (w.osRemove i fileName) with
    | some err => panic (.value (some err))
    | none => removeAll w (i + 1) rest

/-- Go `Run`.  A nil slice is the empty list, so `logFilesList != nil` is `≠ []` (an empty
non-nil slice would enter the `if` and run the loop body zero times). -/
def Run (w : World) (g : Globals) : Go Unit := do
  -- logger
  call (.logSetReportCaller true) none ()
  call (.logSetFormatter true true) none ()
  call (.logSetOutput "os.Stdout") none ()
  call (.logSetLevel "log.TraceLevel") none ()
  -- init db: on windows, delete the value log files first
  if w.GOOS = "windows" then
    let logFilesPattern := w.pathJoin [g.DefaultMetadataLocation, "*.vlog"]
    match ← callE (.filepathGlob logFilesPattern) (w.filepathGlob logFilesPattern) with
    | .error err => panic (.value (some err))
    | .ok logFilesList =>
      if logFilesList ≠ [] then
        removeAll w 0 logFilesList
  let opts := Options.DefaultOptions g.DefaultMetadataLocation
  match ← callE (.badgerOpen opts) (w.badgerOpen opts) with
  | .error err => panic (.value (some err))
  | .ok id =>
    let db := Val.DB id
    -- init index
    let s1 ← call (.NewKVStore db) none (Val.KVStore db)
    let meta ← call (.NewKVIndex s1) none (Val.KVIndex s1)
    -- init mpu manager
    let s2 ← call (.NewKVStore db) none (Val.KVStore db)
    let mpu ← call (.NewKVMultipartManager s2) none (Val.KVMultipartManager s2)
    -- init block store
    match ← callE (.NewLocalFSAdapter g.DefaultBlockLocation)
        (w.NewLocalFSAdapter g.DefaultBlockLocation) with
    | .error err => panic (.value (some err))
    | .ok aid =>
      let blockStore := Val.Adapter aid
      -- init authentication
      let authService ← call (.NewKVAuthService db) none (Val.KVAuthService db)
      -- init gateway server
      let server ← call
        (.NewServer "us-east-1" meta blockStore authService mpu "0.0.0.0:8000" "s3.local:8000")
        none (Val.Server "us-east-1" meta blockStore authService mpu "0.0.0.0:8000" "s3.local:8000")
      match w.Listen with
      | .blocks => ⟨[⟨.Listen server, none⟩], .blocked⟩
      | .returns err => do
        call (.Listen server) err ()
        panic (.value err)

/-- The loop of the callback that `keys` hands to `db.View`: one `fmt.Printf` per key,
the `i`-th call of the function first. -/
def printKeys (w : World) : Nat → List String → Go Unit
  | _, [] => pure ()
  | i, key :: rest => do
    let k := w.KeyFromBytes key
    call (.Printf "%s\n" [k]) (w.Printf i) ()
    printKeys w (i + 1) rest

/-- The function literal `func(tx *badger.Txn) error` in `keys`; the deferred
`iter.Close()` runs when it returns.  It always returns nil. -/
def keysCallback (w : World) : Go (Option GoError) := do
  call (.NewIterator false) none ()
  printKeys w 0 w.dbKeys
  call .iterClose none ()
  pure none

/-- Go `keys`.  The step of `db.View` is recorded when `View` returns, after the steps
of the callback it runs; `View` returns the error of the callback, or its own. -/
def keys (w : World) (g : Globals) : Go Unit := do
  -- init db
  let opts := Options.DefaultOptions g.DefaultMetadataLocation
  match ← callE (.badgerOpen opts) (w.badgerOpen opts) with
  | .error err => panic (.value (some err))
  | .ok id =>
    let db := Val.DB id
    let cbErr ← keysCallback w
    let viewErr := match cbErr with
      | some e => some e
      | none => w.View
    match ← call (.View db) viewErr viewErr with
    | some err => panic (.value (some err))
    | none =>
      match ← call (.Close db) w.Close w.Close with
      | some err => panic (.value (some err))
      | none => pure ()

/-- Go `main`: the switch on `os.Args[1]`.  Entering one of the three functions is
recorded as a step `Call.fn` with its name. -/
def main (w : World) (g : Globals) : Go Unit :=
  match w.Args.get? 1 with
  | none => panic (.indexOutOfRange 1 w.Args.length)
  | some arg =>
    if arg = "run" then do
      call (.fn "Run") none ()
      Run w g
    else if arg = "creds" then do
      call (.fn "createCreds") none ()
      createCreds w g
    else if arg = "keys" then do
      call (.fn "keys") none ()
      keys w g
    else
      pure ()

/-- The whole program: package initialisation, then `main`. -/
def program (w : World) : Go Unit := do
  let g ← initVars w
  main w g

/-! ## Auxiliary definitions used to state and prove the properties -/

/-- The four logger calls that open `Run`. -/
def Run.logSteps : List Step :=
  [⟨.logSetReportCaller true, none⟩, ⟨.logSetFormatter true true, none⟩,
   ⟨.logSetOutput "os.Stdout", none⟩, ⟨.logSetLevel "log.TraceLevel", none⟩]

/-- The `if runtime.GOOS == "windows"` block of `Run`, on its own. -/
def Run.cleanup (w : World) (g : Globals) : Go Unit := do
  if w.GOOS = "windows" then
    let logFilesPattern := w.pathJoin [g.DefaultMetadataLocation, "*.vlog"]
    match ← callE (.filepathGlob logFilesPattern) (w.filepathGlob logFilesPattern) with
    | .error err => panic (.value (some err))
    | .ok logFilesList =>
      if logFilesList ≠ [] then
        removeAll w 0 logFilesList

/-- The part of `Run` from `badger.Open` on, on its own. -/
def Run.serve (w : World) (g : Globals) : Go Unit := do
  let opts := Options.DefaultOptions g.DefaultMetadataLocation
  match ← callE (.badgerOpen opts) (w.badgerOpen opts) with
  | .error err => panic (.value (some err))
  | .ok id =>
    let db := Val.DB id
    let s1 ← call (.NewKVStore db) none (Val.KVStore db)
    let meta ← call (.NewKVIndex s1) none (Val.KVIndex s1)
    let s2 ← call (.NewKVStore db) none (Val.KVStore db)
    let mpu ← call (.NewKVMultipartManager s2) none (Val.KVMultipartManager s2)
    match ← callE (.NewLocalFSAdapter g.DefaultBlockLocation)
        (w.NewLocalFSAdapter g.DefaultBlockLocation) with
    | .error err => panic (.value (some err))
    | .ok aid =>
      let blockStore := Val.Adapter aid
      let authService ← call (.NewKVAuthService db) none (Val.KVAuthService db)
      let server ← call
        (.NewServer "us-east-1" meta blockStore authService mpu "0.0.0.0:8000" "s3.local:8000")
        none (Val.Server "us-east-1" meta blockStore authService mpu "0.0.0.0:8000" "s3.local:8000")
      match w.Listen with
      | .blocks => ⟨[⟨.Listen server, none⟩], .blocked⟩
      | .returns err => do
        call (.Listen server) err ()
        panic (.value err)

/-- The steps of `Run` from a successful `badger.Open` (returning handle `id`) up to the
construction of the multipart manager. -/
def Run.initSteps (g : Globals) (id : Nat) : List Step :=
  [⟨.badgerOpen (.DefaultOptions g.DefaultMetadataLocation), none⟩,
   ⟨.NewKVStore (.DB id), none⟩,
   ⟨.NewKVIndex (.KVStore (.DB id)), none⟩,
   ⟨.NewKVStore (.DB id), none⟩,
   ⟨.NewKVMultipartManager (.KVStore (.DB id)), none⟩]

/-- The gateway server `Run` builds over database handle `id` and adapter `aid`. -/
def Run.server (id aid : Nat) : Val :=
  .Server "us-east-1" (.KVIndex (.KVStore (.DB id))) (.Adapter aid) (.KVAuthService (.DB id))
    (.KVMultipartManager (.KVStore (.DB id))) "0.0.0.0:8000" "s3.local:8000"

/-- The steps of `Run` from a successful `block.NewLocalFSAdapter` (returning `aid`) up to
the construction of the gateway server. -/
def Run.gatewaySteps (g : Globals) (id aid : Nat) : List Step :=
  [⟨.NewLocalFSAdapter g.DefaultBlockLocation, none⟩,
   ⟨.NewKVAuthService (.DB id), none⟩,
   ⟨.NewServer "us-east-1" (.KVIndex (.KVStore (.DB id))) (.Adapter aid) (.KVAuthService (.DB id))
      (.KVMultipartManager (.KVStore (.DB id))) "0.0.0.0:8000" "s3.local:8000", none⟩]

/-- The steps of `createCreds` from a successful `badger.Open` (returning handle `id`) up
to the first call on the auth service. -/
def createCreds.openSteps (g : Globals) (id : Nat) : List Step :=
  [⟨.badgerOpen (.DefaultOptions g.DefaultMetadataLocation), none⟩,
   ⟨.NewKVAuthService (.DB id), none⟩]

/-- The user literal that `createCreds` passes to `CreateUser`. -/
def createCreds.user : User :=
  { Id := "exampleuid", Email := "ozkatz100@gmail.com", FullName := "Oz Katz" }

/-- The steps of the callback of `keys`. -/
def keys.callbackSteps (w : World) : List Step :=
  ⟨.NewIterator false, none⟩ :: ((printKeys w 0 w.dbKeys).trace ++ [⟨.iterClose, none⟩])

/-- Is the call a `badger.Open`? -/
def Call.isOpen : Call → Bool
  | .badgerOpen _ => true
  | _ => false

/-- The file names handed to `os.Remove` in a trace, in order. -/
def removedFiles (t : List Step) : List String :=
  t.filterMap fun s =>
    match s.call with
    | .osRemove name => some name
    | _ => none

/-- The matches returned by `filepath.Glob` (nil, the empty list, when it fails). -/
def globMatches (r : Except GoError (List String)) : List String :=
  match r with
  | .ok l => l
  | .error _ => []

/-- A run passes over no error: every fallible call that returned a non-nil error is the
last call made, and the run panicked with exactly that error value. -/
def ErrorsPanic {α : Type} (r : Go α) : Prop :=
  ∀ (pre : List Step) (s : Step) (post : List Step) (e : GoError),
    r.trace = pre ++ s :: post → s.call.isFallible = true → s.err = some e →
      post = [] ∧ r.outcome = .panicked (.value (some e))

/-- The error value the world returns for a fallible call (for `os.Remove`: as the
`i`-th removal).  `Listen` that never returns gives no error value. -/
def World.errFor (w : World) (i : Nat) : Call → Option GoError
  | .badgerOpen o => errOf (w.badgerOpen o)
  | .CreateUser _ u => w.CreateUser u
  | .CreateRole _ r => w.CreateRole r
  | .AssignRoleToUser _ r u => w.AssignRoleToUser r u
  | .CreateUserCredentials _ u => errOf (w.CreateUserCredentials u)
  | .filepathGlob p => errOf (w.filepathGlob p)
  | .osRemove n => w.osRemove i n
  | .NewLocalFSAdapter p => errOf (w.NewLocalFSAdapter p)
  | .View _ => w.View
  | .Close _ => w.Close
  | .Listen _ =>
    match w.Listen with
    | .returns e => e
    | .blocks => none
  | _ => none

/-- Every fallible step of a run carries the error value the world returned for it. -/
def Faithful {α : Type} (w : World) (r : Go α) : Prop :=
  ∀ s ∈ r.trace, s.call.isFallible = true → ∃ i, s.err = w.errFor i s.call

/-- Go `strings.Split(s, sep)` for a one-character separator, on character lists. -/
def splitChars (sep : Char) : List Char → List (List Char)
  | [] => [[]]
  | c :: cs =>
    if c = sep then [] :: splitChars sep cs
    else
      match splitChars sep cs with
      | [] => [[c]]
      | f :: fs => (c :: f) :: fs

/-- The fields of an identifier: `strings.Split(arn, ":")`. -/
def arnFields (arn : String) : List String :=
  (splitChars ':' arn.toList).map String.mk

/-- Modelled from the spec: the resource matcher of the authorization service (package
`auth`, not part of main.go).  The spec says identifiers are matched with
"trailing-wildcard matching (`...:::*` matches any resource path under the service)":
a pattern that ends in `*` matches every identifier that starts with the pattern's text
before the `*`; any other pattern matches only itself. -/
def ArnMatch (pattern resource : String) : Bool :=
  if pattern.toList.getLast? = some '*' then
    pattern.toList.dropLast.isPrefixOf resource.toList
  else
    pattern == resource

/-- A world in which every call succeeds and `Listen` returns nil, on linux. -/
def exampleWorld : World :=
  { GOOS := "linux"
    Args := ["lakefs", "run"]
    userCurrent := .ok "/home/u"
    pathJoin := fun l => "/".intercalate l
    filepathGlob := fun _ => .ok ["000000.vlog", "000001.vlog"]
    osRemove := fun _ _ => none
    badgerOpen := fun _ => .ok 7
    NewLocalFSAdapter := fun _ => .ok 9
    CreateUser := fun _ => none
    CreateRole := fun _ => none
    AssignRoleToUser := fun _ _ => none
    CreateUserCredentials := fun _ => .ok ⟨"AKIAEXAMPLE", "secret"⟩
    Printf := fun _ => none
    dbKeys := ["k1", "k2"]
    KeyFromBytes := id
    View := none
    Close := none
    Listen := .returns none }

/-- A world in which `CreateRole` fails. -/
def roleFailsWorld : World :=
  { exampleWorld with CreateRole := fun _ => some ⟨"role exists"⟩ }

/-- A windows world in which every call succeeds. -/
def windowsWorld : World :=
  { exampleWorld with GOOS := "windows" }

/-- A windows world in which a value log file is locked: the second `os.Remove` fails. -/
def lockedVlogWorld : World :=
  { exampleWorld with
    GOOS := "windows"
    osRemove := fun i _ => if i = 1 then some ⟨"file in use"⟩ else none }

/-- The package variables for the home directory `/home/u`. -/
def exampleGlobals : Globals :=
  ⟨"/home/u/tv_state/blocks", "/home/u/tv_state/kv"⟩

/-! ## Basic facts about sequencing -/

@[simp] theorem Go.bind_eq {α β : Type} (m : Go α) (f : α → Go β) : m >>= f = Go.bind m f := rfl

@[simp] theorem Go.pure_eq {α : Type} (a : α) : (pure a : Go α) = ⟨[], .returned a⟩ := rfl

@[simp] theorem Go.bind_mk_returned {α β : Type} (t : List Step) (a : α) (f : α → Go β) :
    Go.bind ⟨t, .returned a⟩ f = ⟨t ++ (f a).trace, (f a).outcome⟩ := rfl

@[simp] theorem Go.bind_mk_panicked {α β : Type} (t : List Step) (v : PanicVal) (f : α → Go β) :
    Go.bind ⟨t, .panicked v⟩ f = ⟨t, .panicked v⟩ := rfl

@[simp] theorem Go.bind_mk_blocked {α β : Type} (t : List Step) (f : α → Go β) :
    Go.bind ⟨t, .blocked⟩ f = ⟨t, .blocked⟩ := rfl

theorem Go.bind_assoc {α β γ : Type} (m : Go α) (f : α → Go β) (k : β → Go γ) :
    Go.bind (Go.bind m f) k = Go.bind m (fun a => Go.bind (f a) k) := by
  obtain ⟨t, o⟩ := m
  cases o with
  | returned a =>
    simp only [Go.bind_mk_returned]
    cases h : (f a).outcome <;> simp [Go.bind, h]
  | panicked v => rfl
  | blocked => rfl

theorem Go.cons_bind {α β : Type} (s : Step) (m : Go α) (f : α → Go β) :
    Go.bind ⟨s :: m.trace, m.outcome⟩ f = ⟨s :: (Go.bind m f).trace, (Go.bind m f).outcome⟩ := by
  obtain ⟨t, o⟩ := m
  cases o <;> rfl

theorem Go.mem_trace_bind {α β : Type} (m : Go α) (f : α → Go β) (s : Step) :
    s ∈ (Go.bind m f).trace ↔
      s ∈ m.trace ∨ ∃ a, m.outcome = .returned a ∧ s ∈ (f a).trace := by
  obtain ⟨t, o⟩ := m
  cases o <;> simp

theorem Go.bind_of_returned {α β : Type} (m : Go α) (f : α → Go β) (a : α)
    (h : m.outcome = .returned a) :
    Go.bind m f = ⟨m.trace ++ (f a).trace, (f a).outcome⟩ := by
  obtain ⟨t, o⟩ := m
  cases h
  rfl

theorem Go.bind_of_panicked {α β : Type} (m : Go α) (f : α → Go β) (v : PanicVal)
    (h : m.outcome = .panicked v) :
    Go.bind m f = ⟨m.trace, .panicked v⟩ := by
  obtain ⟨t, o⟩ := m
  cases h
  rfl

/-! ## The shape of `Run` -/

theorem Run_unfold (w : World) (g : Globals) :
    Run w g = Go.bind ⟨Run.logSteps, .returned ()⟩ (fun _ =>
      if w.GOOS = "windows" then
        Go.bind (callE (.filepathGlob (w.pathJoin [g.DefaultMetadataLocation, "*.vlog"]))
            (w.filepathGlob (w.pathJoin [g.DefaultMetadataLocation, "*.vlog"])))
          (fun r => match r with
            | .error err =>
              Go.bind (panic (.value (some err)) : Go PUnit) (fun _ => Run.serve w g)
            | .ok l =>
              if l ≠ [] then Go.bind (removeAll w 0 l) (fun _ => Run.serve w g)
              else Go.bind (pure PUnit.unit) (fun _ => Run.serve w g))
      else Go.bind (pure PUnit.unit) (fun _ => Run.serve w g)) := rfl

/-- `Run` is its logger calls, then the windows block, then the rest. -/
theorem Run_eq (w : World) (g : Globals) :
    Run w g = Go.bind (Go.bind ⟨Run.logSteps, .returned ()⟩ (fun _ => Run.cleanup w g))
      (fun _ => Run.serve w g) := by
  rw [Run_unfold]
  unfold Run.cleanup
  simp only [Go.bind_eq, Go.bind_assoc]
  congr 1
  funext _
  split_ifs with h1
  · cases h : w.filepathGlob (w.pathJoin [g.DefaultMetadataLocation, "*.vlog"]) with
    | error e => simp [callE, panic, h]
    | ok l =>
      by_cases hl : l = [] <;> simp [callE, h, hl, Go.bind_assoc, Go.cons_bind]
  · rfl


/-! ## createCreds -/

/-- The `CreateRole` step of `createCreds`, when it is reached, carries `adminRole`. -/
theorem createCreds_role (w : World) (g : Globals) :
    ∀ s ∈ (createCreds w g).trace, ∀ a r, s.call = .CreateRole a r → r = adminRole := by
  unfold createCreds
  cases h1 : w.badgerOpen (Options.DefaultOptions g.DefaultMetadataLocation) <;>
  cases h2 : w.CreateUser { Id := "exampleuid", Email := "ozkatz100@gmail.com", FullName := "Oz Katz" } <;>
  cases h3 : w.CreateRole adminRole <;>
  cases h4 : w.AssignRoleToUser "examplerid" "exampleuid" <;>
  cases h5 : w.CreateUserCredentials { Id := "exampleuid" } <;>
  simp [call, callE, panic, h1, h2, h3, h4, h5]

/-- When the database opens and `CreateUser` succeeds, `createCreds` calls `CreateRole`
with `adminRole`. -/
theorem createCreds_role_reached (w : World) (g : Globals) (id : Nat)
    (h1 : w.badgerOpen (Options.DefaultOptions g.DefaultMetadataLocation) = .ok id)
    (h2 : w.CreateUser { Id := "exampleuid", Email := "ozkatz100@gmail.com", FullName := "Oz Katz" } = none) :
    (⟨.CreateRole (.KVAuthService (.DB id)) adminRole, w.CreateRole adminRole⟩ : Step) ∈
      (createCreds w g).trace := by
  unfold createCreds
  cases h3 : w.CreateRole adminRole <;>
  cases h4 : w.AssignRoleToUser "examplerid" "exampleuid" <;>
  cases h5 : w.CreateUserCredentials { Id := "exampleuid" } <;>
  simp [call, callE, panic, h1, h2, h3, h4, h5]

theorem ArnMatch_wildcard (p : String) :
    ArnMatch "arn:treeverse:repos:::*" ("arn:treeverse:repos:::" ++ p) = true := by
  have h1 : ("arn:treeverse:repos:::*" : String).toList.getLast? = some '*' := by decide
  have h2 : ("arn:treeverse:repos:::*" : String).toList.dropLast
      = ("arn:treeverse:repos:::" : String).toList := by decide
  unfold ArnMatch
  rw [if_pos h1, h2]
  simp only [String.toList, String.data_append]
  rw [List.isPrefixOf_iff_prefix]
  exact List.prefix_append _ _

/-- C4, as stated, fails: in a run of `createCreds` that reaches `CreateRole`, the
identifiers of the role do not split on `:` into five fields (three non-empty, one
empty, then the resource path). -/
theorem C4_five_fields_refuted :
    ¬ (∀ s ∈ (createCreds exampleWorld exampleGlobals).trace, ∀ a r, s.call = .CreateRole a r →
        ∀ pol ∈ r.Policies, ∃ f1 f2 f3 path : String,
          arnFields pol.Arn = [f1, f2, f3, "", path] ∧ f1 ≠ "" ∧ f2 ≠ "" ∧ f3 ≠ "") := by
  intro h
  obtain ⟨f1, f2, f3, path, hf, -⟩ :=
    h ⟨.CreateRole (.KVAuthService (.DB 7)) adminRole, none⟩ (by decide) _ _ rfl
      ⟨.PermissionManageRepos, "arn:treeverse:repos:::*"⟩ (by decide)
  have hlen := congrArg List.length hf
  have h6 : (arnFields "arn:treeverse:repos:::*").length = 6 := by decide
  rw [h6] at hlen
  simp at hlen

/-- C4, amended: every policy resource identifier that `createCreds` writes into the
admin role splits on `:` into exactly six fields: `arn`, `treeverse`, `repos` (all
non-empty), two empty fields, and the resource path `*`. -/
theorem C4_arn_six_fields (w : World) (g : Globals) (s : Step) (a : Val) (r : Role)
    (pol : Policy) (hs : s ∈ (createCreds w g).trace) (hc : s.call = .CreateRole a r)
    (hp : pol ∈ r.Policies) :
    arnFields pol.Arn = ["arn", "treeverse", "repos", "", "", "*"] ∧
      (arnFields pol.Arn).length = 6 := by
  have hr := createCreds_role w g s hs a r hc
  subst hr
  simp only [adminRole, List.mem_cons, List.mem_singleton, List.not_mem_nil, or_false] at hp
  rcases hp with rfl | rfl | rfl <;> decide

theorem C4_arn_six_fields_witness :
    arnFields "arn:treeverse:repos:::*" = ["arn", "treeverse", "repos", "", "", "*"] ∧
      (arnFields "arn:treeverse:repos:::*").length = 6 :=
  C4_arn_six_fields exampleWorld exampleGlobals
    ⟨.CreateRole (.KVAuthService (.DB 7)) adminRole, none⟩ (.KVAuthService (.DB 7)) adminRole
    ⟨.PermissionReadRepo, "arn:treeverse:repos:::*"⟩ (by decide) rfl (by decide)

/-- C5: the role `createCreds` creates has id `examplerid` and exactly three policies,
with permissions `PermissionManageRepos`, `PermissionReadRepo`, `PermissionWriteRepo` in
that order; all three carry the one identifier `arn:treeverse:repos:::*`, which ends in
`:::*`; and under trailing-wildcard matching each of them matches
`arn:treeverse:repos:::` followed by any resource path. -/
theorem C5_admin_role_policies (w : World) (g : Globals) (s : Step) (a : Val) (r : Role)
    (hs : s ∈ (createCreds w g).trace) (hc : s.call = .CreateRole a r) :
    r.Id = "examplerid" ∧
    r.Policies.length = 3 ∧
    r.Policies.map (fun pol => pol.Permission) =
      [.PermissionManageRepos, .PermissionReadRepo, .PermissionWriteRepo] ∧
    (∀ pol ∈ r.Policies,
      pol.Arn = "arn:treeverse:repos:::*" ∧ ":::*".toList <:+ pol.Arn.toList) ∧
    (∀ (p : String), ∀ pol ∈ r.Policies,
      ArnMatch pol.Arn ("arn:treeverse:repos:::" ++ p) = true) := by
  have hr := createCreds_role w g s hs a r hc
  subst hr
  refine ⟨rfl, rfl, rfl, by decide, ?_⟩
  intro p pol hp
  have : pol.Arn = "arn:treeverse:repos:::*" := by
    revert pol
    decide
  rw [this]
  exact ArnMatch_wildcard p

theorem C5_admin_role_policies_witness :
    adminRole.Id = "examplerid" ∧
    adminRole.Policies.length = 3 ∧
    adminRole.Policies.map (fun pol => pol.Permission) =
      [.PermissionManageRepos, .PermissionReadRepo, .PermissionWriteRepo] ∧
    (∀ pol ∈ adminRole.Policies,
      pol.Arn = "arn:treeverse:repos:::*" ∧ ":::*".toList <:+ pol.Arn.toList) ∧
    (∀ (p : String), ∀ pol ∈ adminRole.Policies,
      ArnMatch pol.Arn ("arn:treeverse:repos:::" ++ p) = true) :=
  C5_admin_role_policies exampleWorld exampleGlobals
    ⟨.CreateRole (.KVAuthService (.DB 7)) adminRole, none⟩ (.KVAuthService (.DB 7)) adminRole
    (by decide) rfl


/-! ## The windows block of `Run` -/

/-- The removal loop either removes every file, or stops at the first removal that
fails and panics with its error. -/
theorem removeAll_spec (w : World) (l : List String) : ∀ i : Nat,
    ((removeAll w i l).outcome = .returned () ∧
      (removeAll w i l).trace = l.map (fun n => ⟨.osRemove n, none⟩)) ∨
    (∃ (done : List String) (n : String) (rest : List String) (e : GoError),
      l = done ++ n :: rest ∧
      (removeAll w i l).trace = done.map (fun n => ⟨.osRemove n, none⟩) ++ [⟨.osRemove n, some e⟩] ∧
      (removeAll w i l).outcome = .panicked (.value (some e))) := by
  induction l with
  | nil => intro i; left; exact ⟨rfl, rfl⟩
  | cons f rest ih =>
    intro i
    unfold removeAll
    cases h : w.osRemove i f with
    | some e =>
      right
      refine ⟨[], f, rest, e, rfl, ?_, ?_⟩ <;> simp [call, panic, h]
    | none =>
      rcases ih (i + 1) with ⟨ho, ht⟩ | ⟨done, n, rest2, e, hl, ht, ho⟩
      · left
        simp [call, h, ho, ht]
      · right
        refine ⟨f :: done, n, rest2, e, by simp [hl], ?_, ?_⟩ <;> simp [call, h, ho, ht]

/-- The three ways the windows block can go. -/
theorem Run.cleanup_spec (w : World) (g : Globals) :
    (w.GOOS ≠ "windows" ∧ Run.cleanup w g = ⟨[], .returned ()⟩) ∨
    (w.GOOS = "windows" ∧ ∃ e,
      w.filepathGlob (w.pathJoin [g.DefaultMetadataLocation, "*.vlog"]) = .error e ∧
      Run.cleanup w g =
        ⟨[⟨.filepathGlob (w.pathJoin [g.DefaultMetadataLocation, "*.vlog"]), some e⟩],
          .panicked (.value (some e))⟩) ∨
    (w.GOOS = "windows" ∧ ∃ l,
      w.filepathGlob (w.pathJoin [g.DefaultMetadataLocation, "*.vlog"]) = .ok l ∧
      Run.cleanup w g =
        ⟨⟨.filepathGlob (w.pathJoin [g.DefaultMetadataLocation, "*.vlog"]), none⟩ ::
          (removeAll w 0 l).trace, (removeAll w 0 l).outcome⟩) := by
  unfold Run.cleanup
  by_cases h1 : w.GOOS = "windows"
  · right
    cases h : w.filepathGlob (w.pathJoin [g.DefaultMetadataLocation, "*.vlog"]) with
    | error e =>
      left
      exact ⟨h1, e, rfl, by simp [callE, panic, h, h1, errOf]⟩
    | ok l =>
      right
      refine ⟨h1, l, rfl, ?_⟩
      by_cases hl : l = []
      · subst hl
        simp [callE, h, h1, errOf, removeAll]
      · simp only [Go.bind_eq, callE, h, h1, errOf, hl, if_true, ne_eq, not_false_eq_true,
          Go.bind_mk_returned, List.singleton_append]
  · left
    exact ⟨h1, by simp [h1]⟩

/-- The windows block never blocks. -/
theorem Run.cleanup_outcome (w : World) (g : Globals) :
    (Run.cleanup w g).outcome = .returned () ∨
      ∃ e, (Run.cleanup w g).outcome = .panicked (.value (some e)) := by
  rcases Run.cleanup_spec w g with ⟨-, h⟩ | ⟨-, e, -, h⟩ | ⟨-, l, -, h⟩
  · left; rw [h]
  · right; exact ⟨e, by rw [h]⟩
  · rw [h]
    rcases removeAll_spec w l 0 with ⟨ho, -⟩ | ⟨_, _, _, e, -, -, ho⟩
    · left; exact ho
    · right; exact ⟨e, ho⟩

/-- `Run` either panics inside the windows block, or goes on to open the database. -/
theorem Run_cases (w : World) (g : Globals) :
    ((Run.cleanup w g).outcome = .returned () ∧
      Run w g = ⟨Run.logSteps ++ ((Run.cleanup w g).trace ++ (Run.serve w g).trace),
        (Run.serve w g).outcome⟩) ∨
    (∃ e, (Run.cleanup w g).outcome = .panicked (.value (some e)) ∧
      Run w g = ⟨Run.logSteps ++ (Run.cleanup w g).trace, .panicked (.value (some e))⟩) := by
  rw [Run_eq, Go.bind_assoc, Go.bind_mk_returned]
  rcases Run.cleanup_outcome w g with h | ⟨e, h⟩
  · left
    refine ⟨h, ?_⟩
    rw [Go.bind_of_returned _ _ _ h]
  · right
    refine ⟨e, h, ?_⟩
    rw [Go.bind_of_panicked _ _ _ h]


/-! ## `Run` from `badger.Open` on -/

/-- The four ways the rest of `Run` can go. -/
theorem Run.serve_spec (w : World) (g : Globals) :
    (∃ e, w.badgerOpen (.DefaultOptions g.DefaultMetadataLocation) = .error e ∧
      Run.serve w g = ⟨[⟨.badgerOpen (.DefaultOptions g.DefaultMetadataLocation), some e⟩],
        .panicked (.value (some e))⟩) ∨
    (∃ id e, w.badgerOpen (.DefaultOptions g.DefaultMetadataLocation) = .ok id ∧
      w.NewLocalFSAdapter g.DefaultBlockLocation = .error e ∧
      Run.serve w g =
        ⟨Run.initSteps g id ++ [⟨.NewLocalFSAdapter g.DefaultBlockLocation, some e⟩],
          .panicked (.value (some e))⟩) ∨
    (∃ id aid, w.badgerOpen (.DefaultOptions g.DefaultMetadataLocation) = .ok id ∧
      w.NewLocalFSAdapter g.DefaultBlockLocation = .ok aid ∧ w.Listen = .blocks ∧
      Run.serve w g =
        ⟨Run.initSteps g id ++ (Run.gatewaySteps g id aid ++ [⟨.Listen (Run.server id aid), none⟩]),
          .blocked⟩) ∨
    (∃ id aid err, w.badgerOpen (.DefaultOptions g.DefaultMetadataLocation) = .ok id ∧
      w.NewLocalFSAdapter g.DefaultBlockLocation = .ok aid ∧ w.Listen = .returns err ∧
      Run.serve w g =
        ⟨Run.initSteps g id ++ (Run.gatewaySteps g id aid ++ [⟨.Listen (Run.server id aid), err⟩]),
          .panicked (.value err)⟩) := by
  unfold Run.serve
  cases h1 : w.badgerOpen (.DefaultOptions g.DefaultMetadataLocation) with
  | error e => left; exact ⟨e, rfl, by simp [callE, panic, h1, errOf]⟩
  | ok id =>
    right
    cases h2 : w.NewLocalFSAdapter g.DefaultBlockLocation with
    | error e =>
      left
      exact ⟨id, e, rfl, rfl, by simp [call, callE, panic, h1, h2, errOf, Run.initSteps]⟩
    | ok aid =>
      right
      cases h3 : w.Listen with
      | blocks =>
        left
        exact ⟨id, aid, rfl, rfl, rfl, by
          simp [call, callE, h1, h2, h3, errOf, Run.initSteps, Run.gatewaySteps, Run.server]⟩
      | returns err =>
        right
        exact ⟨id, aid, err, rfl, rfl, rfl, by
          simp [call, callE, panic, h1, h2, h3, errOf, Run.initSteps, Run.gatewaySteps,
            Run.server]⟩

/-- The rest of `Run` never returns normally. -/
theorem Run.serve_not_returned (w : World) (g : Globals) (a : Unit) :
    (Run.serve w g).outcome ≠ .returned a := by
  rcases Run.serve_spec w g with ⟨e, -, h⟩ | ⟨id, e, -, -, h⟩ | ⟨id, aid, -, -, -, h⟩ |
    ⟨id, aid, err, -, -, -, h⟩ <;> simp [h]

/-- The windows block makes only `filepath.Glob` and `os.Remove` calls. -/
theorem Run.cleanup_calls (w : World) (g : Globals) :
    ∀ s ∈ (Run.cleanup w g).trace,
      s.call = .filepathGlob (w.pathJoin [g.DefaultMetadataLocation, "*.vlog"]) ∨
      ∃ n, s.call = .osRemove n := by
  intro s hs
  rcases Run.cleanup_spec w g with ⟨-, h⟩ | ⟨-, e, -, h⟩ | ⟨-, l, -, h⟩
  · simp [h] at hs
  · simp [h] at hs
    left; rw [hs]
  · rw [h] at hs
    simp only [List.mem_cons] at hs
    rcases hs with rfl | hs
    · left; rfl
    · right
      rcases removeAll_spec w l 0 with ⟨-, ht⟩ | ⟨done, n, rest, e, -, ht, -⟩
      · rw [ht] at hs
        simp only [List.mem_map] at hs
        obtain ⟨n, -, rfl⟩ := hs
        exact ⟨n, rfl⟩
      · rw [ht] at hs
        simp only [List.mem_append, List.mem_map, List.mem_singleton] at hs
        rcases hs with ⟨n, -, rfl⟩ | rfl
        · exact ⟨n, rfl⟩
        · exact ⟨n, rfl⟩

/-- Membership in the trace of `Run`, by part. -/
theorem Run_mem (w : World) (g : Globals) (s : Step) (hs : s ∈ (Run w g).trace) :
    s ∈ Run.logSteps ∨ s ∈ (Run.cleanup w g).trace ∨
      ((Run.cleanup w g).outcome = .returned () ∧ s ∈ (Run.serve w g).trace ∧
        (Run w g).outcome = (Run.serve w g).outcome) := by
  rcases Run_cases w g with ⟨ho, h⟩ | ⟨e, -, h⟩
  · rw [h] at hs ⊢
    simp only [List.mem_append] at hs
    rcases hs with hs | hs | hs
    · exact Or.inl hs
    · exact Or.inr (Or.inl hs)
    · exact Or.inr (Or.inr ⟨ho, hs, rfl⟩)
  · rw [h] at hs
    simp only [List.mem_append] at hs
    rcases hs with hs | hs
    · exact Or.inl hs
    · exact Or.inr (Or.inl hs)

/-- C9: `Run` never returns normally: it ends blocked inside `Listen` or in a panic; and
whenever `Listen` is reached and returns, `Run` panics with the value `Listen` returned,
nil included. -/
theorem C9_Run_never_returns (w : World) (g : Globals) :
    (∀ a, (Run w g).outcome ≠ .returned a) ∧
    ((Run w g).outcome = .blocked ∨ ∃ v, (Run w g).outcome = .panicked v) ∧
    ((Run w g).outcome = .blocked → w.Listen = .blocks) ∧
    (∀ s ∈ (Run w g).trace, ∀ srv err, s.call = .Listen srv → w.Listen = .returns err →
      s.err = err ∧ (Run w g).outcome = .panicked (.value err)) := by
  have key : ∀ a, (Run w g).outcome ≠ .returned a := by
    intro a
    rcases Run_cases w g with ⟨-, h⟩ | ⟨e, -, h⟩
    · rw [h]; exact Run.serve_not_returned w g a
    · rw [h]; simp
  refine ⟨key, ?_, ?_, ?_⟩
  · cases h : (Run w g).outcome with
    | returned a => exact absurd h (key a)
    | panicked v => exact Or.inr ⟨v, rfl⟩
    | blocked => exact Or.inl rfl
  · intro hb
    rcases Run_cases w g with ⟨-, h⟩ | ⟨e, -, h⟩
    · rw [h] at hb
      rcases Run.serve_spec w g with ⟨e, -, h⟩ | ⟨id, e, -, -, h⟩ | ⟨id, aid, -, -, hl, h⟩ |
        ⟨id, aid, err, -, -, -, h⟩
      · simp [h] at hb
      · simp [h] at hb
      · exact hl
      · simp [h] at hb
    · simp [h] at hb
  · intro s hs srv err hc hl
    rcases Run_mem w g s hs with hs | hs | ⟨-, hs, ho⟩
    · simp [Run.logSteps] at hs
      rcases hs with rfl | rfl | rfl | rfl <;> simp at hc
    · rcases Run.cleanup_calls w g s hs with h | ⟨n, h⟩ <;> simp [h] at hc
    · rw [ho]
      rcases Run.serve_spec w g with ⟨e, -, h⟩ | ⟨id, e, -, -, h⟩ | ⟨id, aid, -, -, hl2, h⟩ |
        ⟨id, aid, err2, -, -, hl2, h⟩
      · simp [h] at hs; subst hs; simp at hc
      · simp [h, Run.initSteps] at hs
        rcases hs with rfl | rfl | rfl | rfl | rfl | rfl <;> simp at hc
      · rw [hl2] at hl; cases hl
      · rw [hl2] at hl
        cases hl
        simp [h, Run.initSteps, Run.gatewaySteps] at hs ⊢
        rcases hs with rfl | rfl | rfl | rfl | rfl | rfl | rfl | rfl | rfl <;> simp at hc ⊢

/-- C9 at a world where everything succeeds and `Listen` returns nil: `Run` panics with
the nil value. -/
theorem C9_Run_never_returns_witness :
    (⟨.Listen (Run.server 7 9), none⟩ : Step).err = none ∧
      (Run exampleWorld exampleGlobals).outcome = .panicked (.value none) :=
  (C9_Run_never_returns exampleWorld exampleGlobals).2.2.2
    ⟨.Listen (Run.server 7 9), none⟩ (by decide) (Run.server 7 9) none rfl rfl


/-! ## The shape of `createCreds` and `keys` -/

/-- The six ways `createCreds` can go. -/
theorem createCreds_spec (w : World) (g : Globals) :
    (∃ e, w.badgerOpen (.DefaultOptions g.DefaultMetadataLocation) = .error e ∧
      createCreds w g = ⟨[⟨.badgerOpen (.DefaultOptions g.DefaultMetadataLocation), some e⟩],
        .panicked (.value (some e))⟩) ∨
    (∃ id, w.badgerOpen (.DefaultOptions g.DefaultMetadataLocation) = .ok id ∧
      ((∃ e, w.CreateUser createCreds.user = some e ∧
        createCreds w g = ⟨createCreds.openSteps g id ++
          [⟨.CreateUser (.KVAuthService (.DB id)) createCreds.user, some e⟩],
          .panicked (.value (some e))⟩) ∨
      (w.CreateUser createCreds.user = none ∧
        ((∃ e, w.CreateRole adminRole = some e ∧
          createCreds w g = ⟨createCreds.openSteps g id ++
            [⟨.CreateUser (.KVAuthService (.DB id)) createCreds.user, none⟩,
             ⟨.CreateRole (.KVAuthService (.DB id)) adminRole, some e⟩],
            .panicked (.value (some e))⟩) ∨
        (w.CreateRole adminRole = none ∧
          ((∃ e, w.AssignRoleToUser "examplerid" "exampleuid" = some e ∧
            createCreds w g = ⟨createCreds.openSteps g id ++
              [⟨.CreateUser (.KVAuthService (.DB id)) createCreds.user, none⟩,
               ⟨.CreateRole (.KVAuthService (.DB id)) adminRole, none⟩,
               ⟨.AssignRoleToUser (.KVAuthService (.DB id)) "examplerid" "exampleuid", some e⟩],
              .panicked (.value (some e))⟩) ∨
          (w.AssignRoleToUser "examplerid" "exampleuid" = none ∧
            ((∃ e, w.CreateUserCredentials { Id := "exampleuid" } = .error e ∧
              createCreds w g = ⟨createCreds.openSteps g id ++
                [⟨.CreateUser (.KVAuthService (.DB id)) createCreds.user, none⟩,
                 ⟨.CreateRole (.KVAuthService (.DB id)) adminRole, none⟩,
                 ⟨.AssignRoleToUser (.KVAuthService (.DB id)) "examplerid" "exampleuid", none⟩,
                 ⟨.CreateUserCredentials (.KVAuthService (.DB id)) { Id := "exampleuid" },
                   some e⟩],
                .panicked (.value (some e))⟩) ∨
            (∃ creds, w.CreateUserCredentials { Id := "exampleuid" } = .ok creds ∧
              createCreds w g = ⟨createCreds.openSteps g id ++
                [⟨.CreateUser (.KVAuthService (.DB id)) createCreds.user, none⟩,
                 ⟨.CreateRole (.KVAuthService (.DB id)) adminRole, none⟩,
                 ⟨.AssignRoleToUser (.KVAuthService (.DB id)) "examplerid" "exampleuid", none⟩,
                 ⟨.CreateUserCredentials (.KVAuthService (.DB id)) { Id := "exampleuid" },
                   none⟩,
                 ⟨.Printf "creds:\naccess: %s\nsecret: %s\n"
                   [creds.AccessKeyId, creds.AccessSecretKey], w.Printf 0⟩],
                .returned ()⟩))))))))) := by
  unfold createCreds
  cases h1 : w.badgerOpen (.DefaultOptions g.DefaultMetadataLocation) with
  | error e => left; exact ⟨e, rfl, by simp [callE, panic, h1, errOf]⟩
  | ok id =>
    right
    refine ⟨id, rfl, ?_⟩
    cases h2 : w.CreateUser createCreds.user with
    | some e =>
      left
      have h2' := h2
      unfold createCreds.user at h2'
      exact ⟨e, rfl, by simp [call, callE, panic, h1, h2', errOf, createCreds.openSteps, createCreds.user]⟩
    | none =>
      right
      have h2' := h2
      unfold createCreds.user at h2'
      refine ⟨rfl, ?_⟩
      cases h3 : w.CreateRole adminRole with
      | some e =>
        left
        exact ⟨e, rfl, by
          simp [call, callE, panic, h1, h2', h3, errOf, createCreds.openSteps, createCreds.user]⟩
      | none =>
        right
        refine ⟨rfl, ?_⟩
        cases h4 : w.AssignRoleToUser "examplerid" "exampleuid" with
        | some e =>
          left
          exact ⟨e, rfl, by
            simp [call, callE, panic, h1, h2', h3, h4, errOf, createCreds.openSteps,
              createCreds.user]⟩
        | none =>
          right
          refine ⟨rfl, ?_⟩
          cases h5 : w.CreateUserCredentials { Id := "exampleuid" } with
          | error e =>
            left
            exact ⟨e, rfl, by
              simp [call, callE, panic, h1, h2', h3, h4, h5, errOf, createCreds.openSteps,
                createCreds.user]⟩
          | ok creds =>
            right
            exact ⟨creds, rfl, by
              simp [call, callE, panic, h1, h2', h3, h4, h5, errOf, createCreds.openSteps,
                createCreds.user]⟩

/-- The print loop of `keys` makes only `fmt.Printf` calls and returns. -/
theorem printKeys_spec (w : World) (l : List String) : ∀ i : Nat,
    (printKeys w i l).outcome = .returned () ∧
      ∀ s ∈ (printKeys w i l).trace, ∃ f a, s.call = .Printf f a := by
  induction l with
  | nil => intro i; exact ⟨rfl, by simp [printKeys]⟩
  | cons k rest ih =>
    intro i
    obtain ⟨ho, ht⟩ := ih (i + 1)
    unfold printKeys
    simp only [Go.bind_eq, call, Go.bind_mk_returned, List.singleton_append, List.mem_cons]
    refine ⟨ho, ?_⟩
    rintro s (rfl | hs)
    · exact ⟨_, _, rfl⟩
    · exact ht s hs

/-- The callback of `keys` returns nil after its steps. -/
theorem keysCallback_eq (w : World) :
    keysCallback w = ⟨keys.callbackSteps w, .returned none⟩ := by
  unfold keysCallback keys.callbackSteps
  have ho := (printKeys_spec w w.dbKeys 0).1
  simp only [Go.bind_eq, call, Go.bind_mk_returned, List.singleton_append, Go.pure_eq]
  rw [Go.bind_of_returned _ _ _ ho]

/-- The four ways `keys` can go. -/
theorem keys_spec (w : World) (g : Globals) :
    (∃ e, w.badgerOpen (.DefaultOptions g.DefaultMetadataLocation) = .error e ∧
      keys w g = ⟨[⟨.badgerOpen (.DefaultOptions g.DefaultMetadataLocation), some e⟩],
        .panicked (.value (some e))⟩) ∨
    (∃ id, w.badgerOpen (.DefaultOptions g.DefaultMetadataLocation) = .ok id ∧
      ((∃ e, w.View = some e ∧
        keys w g = ⟨⟨.badgerOpen (.DefaultOptions g.DefaultMetadataLocation), none⟩ ::
          (keys.callbackSteps w ++ [⟨.View (.DB id), some e⟩]),
          .panicked (.value (some e))⟩) ∨
      (w.View = none ∧
        ((∃ e, w.Close = some e ∧
          keys w g = ⟨⟨.badgerOpen (.DefaultOptions g.DefaultMetadataLocation), none⟩ ::
            (keys.callbackSteps w ++ [⟨.View (.DB id), none⟩, ⟨.Close (.DB id), some e⟩]),
            .panicked (.value (some e))⟩) ∨
        (w.Close = none ∧
          keys w g = ⟨⟨.badgerOpen (.DefaultOptions g.DefaultMetadataLocation), none⟩ ::
            (keys.callbackSteps w ++ [⟨.View (.DB id), none⟩, ⟨.Close (.DB id), none⟩]),
            .returned ()⟩))))) := by
  unfold keys
  cases h1 : w.badgerOpen (.DefaultOptions g.DefaultMetadataLocation) with
  | error e => left; exact ⟨e, rfl, by simp [callE, panic, h1, errOf]⟩
  | ok id =>
    right
    refine ⟨id, rfl, ?_⟩
    cases h2 : w.View with
    | some e =>
      left
      exact ⟨e, rfl, by simp [call, callE, panic, h1, h2, errOf, keysCallback_eq]⟩
    | none =>
      right
      refine ⟨rfl, ?_⟩
      cases h3 : w.Close with
      | some e =>
        left
        exact ⟨e, rfl, by simp [call, callE, panic, h1, h2, h3, errOf, keysCallback_eq]⟩
      | none =>
        right
        exact ⟨rfl, by simp [call, callE, panic, h1, h2, h3, errOf, keysCallback_eq]⟩


/-! ## Errors are never passed over -/

/-- A trace whose steps before the last carry no error of a fallible call, and whose
last step, if it is a fallible call with an error, is matched by the panic. -/
theorem ErrorsPanic.of_quiet_snoc {α : Type} (t : List Step) (s : Step) (o : Outcome α)
    (hq : ∀ x ∈ t, x.call.isFallible = true → x.err = none)
    (hs : ∀ e, s.call.isFallible = true → s.err = some e → o = .panicked (.value (some e))) :
    ErrorsPanic (⟨t ++ [s], o⟩ : Go α) := by
  intro pre x post e heq hf he
  simp only at heq
  rcases List.eq_nil_or_concat post with rfl | ⟨post2, y, rfl⟩
  · obtain ⟨-, hx⟩ := List.append_inj' heq rfl
    cases hx
    exact ⟨rfl, hs e hf he⟩
  · have heq2 : t ++ [s] = (pre ++ x :: post2) ++ [y] := by
      rw [heq]; simp
    obtain ⟨ht, -⟩ := List.append_inj' heq2 rfl
    have hx : x ∈ t := by rw [ht]; simp
    rw [hq x hx hf] at he
    cases he

/-- A run with no step at all passes over no error. -/
theorem ErrorsPanic.of_nil {α : Type} (o : Outcome α) : ErrorsPanic (⟨[], o⟩ : Go α) := by
  intro pre x post e heq
  simp at heq

/-- The steps of the removal loop are `os.Remove` calls carrying the world's answer. -/
theorem removeAll_faithful (w : World) (l : List String) : ∀ i : Nat,
    ∀ s ∈ (removeAll w i l).trace, ∃ j n, s.call = .osRemove n ∧ s.err = w.osRemove j n := by
  induction l with
  | nil => intro i s hs; simp [removeAll] at hs
  | cons f rest ih =>
    intro i s hs
    unfold removeAll at hs
    cases h : w.osRemove i f with
    | some e =>
      simp [call, panic, h] at hs
      subst hs
      exact ⟨i, f, rfl, h.symm⟩
    | none =>
      simp [call, h] at hs
      rcases hs with rfl | hs
      · exact ⟨i, f, rfl, h.symm⟩
      · exact ih (i + 1) s hs


theorem createCreds_errorsPanic (w : World) (g : Globals) : ErrorsPanic (createCreds w g) := by
  rcases createCreds_spec w g with ⟨e, -, h⟩ | ⟨id, -, ⟨e, -, h⟩ | ⟨-, ⟨e, -, h⟩ | ⟨-, ⟨e, -, h⟩ |
    ⟨-, ⟨e, -, h⟩ | ⟨creds, -, h⟩⟩⟩⟩⟩
  · rw [h]
    exact ErrorsPanic.of_quiet_snoc [] _ _ (by simp) (by simp)
  · rw [h]
    exact ErrorsPanic.of_quiet_snoc _ _ _ (by simp [createCreds.openSteps]) (by simp)
  · rw [h, show ∀ (a b : Step) (l : List Step), l ++ [a, b] = (l ++ [a]) ++ [b] by simp]
    exact ErrorsPanic.of_quiet_snoc _ _ _ (by simp [createCreds.openSteps]) (by simp)
  · rw [h, show ∀ (a b c : Step) (l : List Step), l ++ [a, b, c] = (l ++ [a, b]) ++ [c] by simp]
    exact ErrorsPanic.of_quiet_snoc _ _ _ (by simp [createCreds.openSteps]) (by simp)
  · rw [h, show ∀ (a b c d : Step) (l : List Step),
      l ++ [a, b, c, d] = (l ++ [a, b, c]) ++ [d] by simp]
    exact ErrorsPanic.of_quiet_snoc _ _ _ (by simp [createCreds.openSteps]) (by simp)
  · rw [h, show ∀ (a b c d e : Step) (l : List Step),
      l ++ [a, b, c, d, e] = (l ++ [a, b, c, d]) ++ [e] by simp]
    exact ErrorsPanic.of_quiet_snoc _ _ _ (by simp [createCreds.openSteps])
      (by simp [Call.isFallible])

theorem createCreds_faithful (w : World) (g : Globals) : Faithful w (createCreds w g) := by
  unfold Faithful
  rcases createCreds_spec w g with ⟨e, h1, h⟩ | ⟨id, h1, ⟨e, h2, h⟩ | ⟨h2, ⟨e, h3, h⟩ |
    ⟨h3, ⟨e, h4, h⟩ | ⟨h4, ⟨e, h5, h⟩ | ⟨creds, h5, h⟩⟩⟩⟩⟩ <;>
  · rw [h]
    simp [createCreds.openSteps, World.errFor, Call.isFallible, errOf, *]

theorem keys_errorsPanic (w : World) (g : Globals) : ErrorsPanic (keys w g) := by
  have hcb : ∀ x ∈ keys.callbackSteps w, x.call.isFallible = true → x.err = none := by
    intro x hx hf
    simp only [keys.callbackSteps, List.mem_cons, List.mem_append, List.mem_singleton,
      List.not_mem_nil, or_false] at hx
    rcases hx with rfl | hx | rfl
    · simp [Call.isFallible] at hf
    · obtain ⟨f, a, hc⟩ := (printKeys_spec w w.dbKeys 0).2 x hx
      simp [hc, Call.isFallible] at hf
    · simp [Call.isFallible] at hf
  rcases keys_spec w g with ⟨e, -, h⟩ | ⟨id, -, ⟨e, -, h⟩ | ⟨-, ⟨e, -, h⟩ | ⟨-, h⟩⟩⟩
  · rw [h]
    exact ErrorsPanic.of_quiet_snoc [] _ _ (by simp) (by simp)
  · rw [h, show ∀ (a b : Step) (l : List Step), a :: (l ++ [b]) = (a :: l) ++ [b] by simp]
    refine ErrorsPanic.of_quiet_snoc _ _ _ ?_ (by simp)
    intro x hx hf
    rcases List.mem_cons.1 hx with rfl | hx
    · rfl
    · exact hcb x hx hf
  · rw [h, show ∀ (a b c : Step) (l : List Step),
      a :: (l ++ [b, c]) = (a :: (l ++ [b])) ++ [c] by simp]
    refine ErrorsPanic.of_quiet_snoc _ _ _ ?_ (by simp)
    intro x hx hf
    simp only [List.mem_cons, List.mem_append, List.mem_singleton, List.not_mem_nil,
      or_false] at hx
    rcases hx with rfl | hx | rfl
    · rfl
    · exact hcb x hx hf
    · rfl
  · rw [h, show ∀ (a b c : Step) (l : List Step),
      a :: (l ++ [b, c]) = (a :: (l ++ [b])) ++ [c] by simp]
    refine ErrorsPanic.of_quiet_snoc _ _ _ ?_ (by simp)
    intro x hx hf
    simp only [List.mem_cons, List.mem_append, List.mem_singleton, List.not_mem_nil,
      or_false] at hx
    rcases hx with rfl | hx | rfl
    · rfl
    · exact hcb x hx hf
    · rfl

theorem keys_faithful (w : World) (g : Globals) : Faithful w (keys w g) := by
  intro s hs hf
  refine ⟨0, ?_⟩
  have hcb : ∀ x ∈ keys.callbackSteps w, x.call.isFallible = false := by
    intro x hx
    simp only [keys.callbackSteps, List.mem_cons, List.mem_append, List.mem_singleton,
      List.not_mem_nil, or_false] at hx
    rcases hx with rfl | hx | rfl
    · rfl
    · obtain ⟨f, a, hc⟩ := (printKeys_spec w w.dbKeys 0).2 x hx
      simp [hc, Call.isFallible]
    · rfl
  rcases keys_spec w g with ⟨e, h1, h⟩ | ⟨id, h1, ⟨e, h2, h⟩ | ⟨h2, ⟨e, h3, h⟩ | ⟨h3, h⟩⟩⟩
  · rw [h] at hs
    simp only [List.mem_singleton] at hs
    subst hs
    simp [World.errFor, errOf, h1]
  all_goals
    rw [h] at hs
    rcases List.mem_cons.1 hs with rfl | hs
    · simp [World.errFor, errOf, h1]
    rcases List.mem_append.1 hs with hs | hs
    · rw [hcb s hs] at hf; cases hf
    simp only [List.mem_cons, List.mem_singleton, List.not_mem_nil, or_false] at hs
    rcases hs with rfl | rfl <;> simp [World.errFor, *]

/-- The windows block is quiet when it returns, and ends in the failing call when it
panics. -/
theorem Run.cleanup_shape (w : World) (g : Globals) :
    ((Run.cleanup w g).outcome = .returned () ∧
      ∀ x ∈ (Run.cleanup w g).trace, x.err = none) ∨
    (∃ t s e, (Run.cleanup w g).trace = t ++ [s] ∧ (∀ x ∈ t, x.err = none) ∧
      s.err = some e ∧ (Run.cleanup w g).outcome = .panicked (.value (some e))) := by
  rcases Run.cleanup_spec w g with ⟨-, h⟩ | ⟨-, e, -, h⟩ | ⟨-, l, -, h⟩
  · left; rw [h]; simp
  · right; rw [h]; exact ⟨[], _, e, rfl, by simp, rfl, rfl⟩
  · rw [h]
    rcases removeAll_spec w l 0 with ⟨ho, ht⟩ | ⟨done, n, rest, e, -, ht, ho⟩
    · left
      rw [ht]
      refine ⟨ho, ?_⟩
      simp
    · right
      rw [ht]
      refine ⟨_ :: done.map (fun n => ⟨.osRemove n, none⟩), _, e, rfl, ?_, rfl, ho⟩
      simp

/-- The rest of `Run` ends in the one call that may carry an error, and panics with that
error if it does. -/
theorem Run.serve_shape (w : World) (g : Globals) :
    ∃ t s, (Run.serve w g).trace = t ++ [s] ∧ (∀ x ∈ t, x.err = none) ∧
      ∀ e, s.err = some e → (Run.serve w g).outcome = .panicked (.value (some e)) := by
  rcases Run.serve_spec w g with ⟨e, -, h⟩ | ⟨id, e, -, -, h⟩ | ⟨id, aid, -, -, -, h⟩ |
    ⟨id, aid, err, -, -, -, h⟩
  · rw [h]; exact ⟨[], _, rfl, by simp, by simp⟩
  · rw [h]; exact ⟨_, _, rfl, by simp [Run.initSteps], by simp⟩
  · rw [h]
    exact ⟨Run.initSteps g id ++ Run.gatewaySteps g id aid, ⟨.Listen (Run.server id aid), none⟩,
      by simp, by simp [Run.initSteps, Run.gatewaySteps], by simp⟩
  · rw [h]
    exact ⟨Run.initSteps g id ++ Run.gatewaySteps g id aid, ⟨.Listen (Run.server id aid), err⟩,
      by simp, by simp [Run.initSteps, Run.gatewaySteps], by simp⟩

theorem Run_errorsPanic (w : World) (g : Globals) : ErrorsPanic (Run w g) := by
  rcases Run_cases w g with ⟨ho2, h⟩ | ⟨e, hpo, h⟩
  · rcases Run.cleanup_shape w g with ⟨-, hq⟩ | ⟨t, s, e, -, -, -, ho⟩
    · obtain ⟨t, s, ht, hqt, hs⟩ := Run.serve_shape w g
      rw [h, ht, show ∀ (a b c : List Step) (s : Step),
        a ++ (b ++ (c ++ [s])) = (a ++ b ++ c) ++ [s] by simp]
      refine ErrorsPanic.of_quiet_snoc _ _ _ ?_ (fun e _ he => hs e he)
      intro x hx _
      simp only [List.mem_append] at hx
      rcases hx with (hx | hx) | hx
      · simp [Run.logSteps] at hx
        rcases hx with rfl | rfl | rfl | rfl <;> rfl
      · exact hq x hx
      · exact hqt x hx
    · rw [ho2] at ho; cases ho
  · rcases Run.cleanup_shape w g with ⟨ho, -⟩ | ⟨t, s, e2, ht, hq, hs, ho⟩
    · rw [ho] at hpo; cases hpo
    · rw [ho] at hpo
      cases hpo
      rw [h, ht, ← List.append_assoc]
      refine ErrorsPanic.of_quiet_snoc _ _ _ ?_ (fun e3 _ he => by rw [hs] at he; cases he; rfl)
      intro x hx _
      simp only [List.mem_append] at hx
      rcases hx with hx | hx
      · simp [Run.logSteps] at hx
        rcases hx with rfl | rfl | rfl | rfl <;> rfl
      · exact hq x hx

theorem Run.serve_faithful (w : World) (g : Globals) :
    ∀ s ∈ (Run.serve w g).trace, s.call.isFallible = true → s.err = w.errFor 0 s.call := by
  rcases Run.serve_spec w g with ⟨e, h1, h⟩ | ⟨id, e, h1, h2, h⟩ | ⟨id, aid, h1, h2, h3, h⟩ |
    ⟨id, aid, err, h1, h2, h3, h⟩ <;>
  · rw [h]
    simp [Run.initSteps, Run.gatewaySteps, World.errFor, Call.isFallible, errOf, *]

theorem Run_faithful (w : World) (g : Globals) : Faithful w (Run w g) := by
  intro s hs hf
  rcases Run_mem w g s hs with hs | hs | ⟨-, hs, -⟩
  · simp [Run.logSteps] at hs
    rcases hs with rfl | rfl | rfl | rfl <;> simp [Call.isFallible] at hf
  · rcases Run.cleanup_spec w g with ⟨-, h⟩ | ⟨-, e, hg, h⟩ | ⟨-, l, hg, h⟩
    · simp [h] at hs
    · simp [h] at hs
      subst hs
      exact ⟨0, by simp [World.errFor, hg, errOf]⟩
    · rw [h] at hs
      rcases List.mem_cons.1 hs with rfl | hs
      · exact ⟨0, by simp [World.errFor, hg, errOf]⟩
      · obtain ⟨j, n, hc, he⟩ := removeAll_faithful w l 0 s hs
        exact ⟨j, by rw [hc, he]; rfl⟩
  · exact ⟨0, Run.serve_faithful w g s hs hf⟩


/-- C6: in `createCreds`, `Run` and `keys`, every fallible collaborator call carries the
error the world returned for it, and a call that returned a non-nil error is the last
call made, the function panicking with exactly that error value; `createCreds` reaches
its `fmt.Printf` only when the database open and the four auth calls all succeeded, and
prints the credentials that `CreateUserCredentials` returned. -/
theorem C6_no_error_swallowed (w : World) (g : Globals) :
    (Faithful w (createCreds w g) ∧ ErrorsPanic (createCreds w g)) ∧
    (Faithful w (Run w g) ∧ ErrorsPanic (Run w g)) ∧
    (Faithful w (keys w g) ∧ ErrorsPanic (keys w g)) ∧
    (∀ s ∈ (createCreds w g).trace, ∀ f a, s.call = .Printf f a →
      (∃ id, w.badgerOpen (.DefaultOptions g.DefaultMetadataLocation) = .ok id) ∧
      w.CreateUser createCreds.user = none ∧
      w.CreateRole adminRole = none ∧
      w.AssignRoleToUser "examplerid" "exampleuid" = none ∧
      ∃ creds, w.CreateUserCredentials { Id := "exampleuid" } = .ok creds ∧
        a = [creds.AccessKeyId, creds.AccessSecretKey]) := by
  refine ⟨⟨createCreds_faithful w g, createCreds_errorsPanic w g⟩,
    ⟨Run_faithful w g, Run_errorsPanic w g⟩, ⟨keys_faithful w g, keys_errorsPanic w g⟩, ?_⟩
  rcases createCreds_spec w g with ⟨e, h1, h⟩ | ⟨id, h1, ⟨e, h2, h⟩ | ⟨h2, ⟨e, h3, h⟩ |
    ⟨h3, ⟨e, h4, h⟩ | ⟨h4, ⟨e, h5, h⟩ | ⟨creds, h5, h⟩⟩⟩⟩⟩ <;>
  · rw [h]
    simp [createCreds.openSteps, *]

/-- C6 at a world where `CreateRole` fails: `createCreds` stops there and panics with
that error. -/
theorem C6_no_error_swallowed_witness :
    ([] : List Step) = [] ∧
      (createCreds roleFailsWorld exampleGlobals).outcome =
        .panicked (.value (some ⟨"role exists"⟩)) :=
  (C6_no_error_swallowed roleFailsWorld exampleGlobals).1.2
    [⟨.badgerOpen (.DefaultOptions "/home/u/tv_state/kv"), none⟩,
     ⟨.NewKVAuthService (.DB 7), none⟩,
     ⟨.CreateUser (.KVAuthService (.DB 7)) createCreds.user, none⟩]
    ⟨.CreateRole (.KVAuthService (.DB 7)) adminRole, some ⟨"role exists"⟩⟩ []
    ⟨"role exists"⟩ (by decide) rfl rfl


/-! ## `main` -/

theorem createCreds_no_fn (w : World) (g : Globals) :
    ∀ s ∈ (createCreds w g).trace, ∀ n, s.call ≠ .fn n := by
  rcases createCreds_spec w g with ⟨e, h1, h⟩ | ⟨id, h1, ⟨e, h2, h⟩ | ⟨h2, ⟨e, h3, h⟩ |
    ⟨h3, ⟨e, h4, h⟩ | ⟨h4, ⟨e, h5, h⟩ | ⟨creds, h5, h⟩⟩⟩⟩⟩ <;>
  · rw [h]
    simp [createCreds.openSteps]

theorem keys_no_fn (w : World) (g : Globals) :
    ∀ s ∈ (keys w g).trace, ∀ n, s.call ≠ .fn n := by
  have hcb : ∀ x ∈ keys.callbackSteps w, ∀ n, x.call ≠ .fn n := by
    intro x hx n
    simp only [keys.callbackSteps, List.mem_cons, List.mem_append, List.mem_singleton,
      List.not_mem_nil, or_false] at hx
    rcases hx with rfl | hx | rfl
    · simp
    · obtain ⟨f, a, hc⟩ := (printKeys_spec w w.dbKeys 0).2 x hx
      simp [hc]
    · simp
  intro s hs n
  rcases keys_spec w g with ⟨e, h1, h⟩ | ⟨id, h1, ⟨e, h2, h⟩ | ⟨h2, ⟨e, h3, h⟩ | ⟨h3, h⟩⟩⟩
  · rw [h] at hs
    simp only [List.mem_singleton] at hs
    subst hs
    simp
  all_goals
    rw [h] at hs
    rcases List.mem_cons.1 hs with rfl | hs
    · simp
    rcases List.mem_append.1 hs with hs | hs
    · exact hcb s hs n
    simp only [List.mem_cons, List.mem_singleton, List.not_mem_nil, or_false] at hs
    rcases hs with rfl | rfl <;> simp

theorem Run.serve_no_fn (w : World) (g : Globals) :
    ∀ s ∈ (Run.serve w g).trace, ∀ n, s.call ≠ .fn n := by
  rcases Run.serve_spec w g with ⟨e, h1, h⟩ | ⟨id, e, h1, h2, h⟩ | ⟨id, aid, h1, h2, h3, h⟩ |
    ⟨id, aid, err, h1, h2, h3, h⟩ <;>
  · rw [h]
    simp [Run.initSteps, Run.gatewaySteps]

theorem Run_no_fn (w : World) (g : Globals) :
    ∀ s ∈ (Run w g).trace, ∀ n, s.call ≠ .fn n := by
  intro s hs n
  rcases Run_mem w g s hs with hs | hs | ⟨-, hs, -⟩
  · simp [Run.logSteps] at hs
    rcases hs with rfl | rfl | rfl | rfl <;> simp
  · rcases Run.cleanup_calls w g s hs with h | ⟨m, h⟩ <;> simp [h]
  · exact Run.serve_no_fn w g s hs n

/-- After entering a function of main.go whose body makes no `fn` step, the only `fn` step
is the one of entering it. -/
theorem entered_iff (name : String) (r : Go Unit)
    (hr : ∀ s ∈ r.trace, ∀ n, s.call ≠ .fn n) (n : String) :
    (∃ s ∈ (Go.bind (call (.fn name) none ()) (fun _ => r)).trace, s.call = .fn n) ↔
      name = n := by
  simp only [call, Go.bind_mk_returned, List.singleton_append, List.mem_cons]
  constructor
  · rintro ⟨s, rfl | hs, hc⟩
    · simpa using hc
    · exact absurd hc (hr s hs n)
  · rintro rfl
    exact ⟨_, Or.inl rfl, rfl⟩

/-- C8: `main` dispatches on `os.Args[1]`: with at least two arguments it enters `Run`
exactly when the argument is `run`, `createCreds` exactly when it is `creds`, `keys`
exactly when it is `keys`, and for any other argument makes no call and returns; with
fewer than two arguments it panics on the index, having made no call. -/
theorem C8_main_dispatch (w : World) (g : Globals) :
    (2 ≤ w.Args.length → ∃ arg, w.Args.get? 1 = some arg) ∧
    (∀ arg, w.Args.get? 1 = some arg →
      (arg = "run" → main w g = Go.bind (call (.fn "Run") none ()) (fun _ => Run w g)) ∧
      (arg = "creds" →
        main w g = Go.bind (call (.fn "createCreds") none ()) (fun _ => createCreds w g)) ∧
      (arg = "keys" → main w g = Go.bind (call (.fn "keys") none ()) (fun _ => keys w g)) ∧
      (arg ≠ "run" → arg ≠ "creds" → arg ≠ "keys" → main w g = ⟨[], .returned ()⟩) ∧
      ((∃ s ∈ (main w g).trace, s.call = .fn "Run") ↔ arg = "run") ∧
      ((∃ s ∈ (main w g).trace, s.call = .fn "createCreds") ↔ arg = "creds") ∧
      ((∃ s ∈ (main w g).trace, s.call = .fn "keys") ↔ arg = "keys")) ∧
    (w.Args.length < 2 →
      w.Args.get? 1 = none ∧
      main w g = ⟨[], .panicked (.indexOutOfRange 1 w.Args.length)⟩) := by
  refine ⟨?_, ?_, ?_⟩
  · intro hlen
    exact ⟨w.Args.get ⟨1, hlen⟩, List.get?_eq_get hlen⟩
  · intro arg harg
    have hR := Run_no_fn w g
    have hC := createCreds_no_fn w g
    have hK := keys_no_fn w g
    by_cases h1 : arg = "run"
    · subst h1
      have hm : main w g = Go.bind (call (.fn "Run") none ()) (fun _ => Run w g) := by
        unfold main; rw [harg]; rfl
      refine ⟨fun _ => hm, fun h => absurd h (by decide), fun h => absurd h (by decide),
        fun h => absurd rfl h, ?_, ?_, ?_⟩ <;>
      · rw [hm]
        exact (entered_iff _ _ hR _).trans (by decide)
    · by_cases h2 : arg = "creds"
      · subst h2
        have hm : main w g =
            Go.bind (call (.fn "createCreds") none ()) (fun _ => createCreds w g) := by
          unfold main; rw [harg]; rfl
        refine ⟨fun h => absurd h (by decide), fun _ => hm, fun h => absurd h (by decide),
          fun _ h => absurd rfl h, ?_, ?_, ?_⟩ <;>
        · rw [hm]
          exact (entered_iff _ _ hC _).trans (by decide)
      · by_cases h3 : arg = "keys"
        · subst h3
          have hm : main w g = Go.bind (call (.fn "keys") none ()) (fun _ => keys w g) := by
            unfold main; rw [harg]; rfl
          refine ⟨fun h => absurd h (by decide), fun h => absurd h (by decide), fun _ => hm,
            fun _ _ h => absurd rfl h, ?_, ?_, ?_⟩ <;>
          · rw [hm]
            exact (entered_iff _ _ hK _).trans (by decide)
        · have hm : main w g = ⟨[], .returned ()⟩ := by
            unfold main; rw [harg]; simp [h1, h2, h3]
          refine ⟨fun h => absurd h h1, fun h => absurd h h2, fun h => absurd h h3,
            fun _ _ _ => hm, ?_, ?_, ?_⟩ <;>
          · rw [hm]
            simp [h1, h2, h3]
  · intro hlen
    have hnone : w.Args.get? 1 = none := List.get?_eq_none.2 (by omega)
    refine ⟨hnone, ?_⟩
    unfold main
    rw [hnone]
    rfl

/-- C8 at the argument vector `lakefs run`: `main` enters `Run`. -/
theorem C8_main_dispatch_witness :
    main exampleWorld exampleGlobals =
      Go.bind (call (.fn "Run") none ()) (fun _ => Run exampleWorld exampleGlobals) :=
  ((C8_main_dispatch exampleWorld exampleGlobals).2.1 "run" rfl).1 rfl


/-! ## The files `Run` removes -/

theorem removedFiles_append (a b : List Step) :
    removedFiles (a ++ b) = removedFiles a ++ removedFiles b := by
  simp [removedFiles, List.filterMap_append]

theorem removedFiles_map (l : List String) (e : Option GoError) :
    removedFiles (l.map (fun n => ⟨.osRemove n, e⟩)) = l := by
  induction l with
  | nil => rfl
  | cons n rest ih =>
    simp only [removedFiles, List.map_cons, List.filterMap_cons] at ih ⊢
    rw [ih]

theorem removedFiles_logSteps : removedFiles Run.logSteps = [] := by decide

theorem Run.serve_removedFiles (w : World) (g : Globals) :
    removedFiles (Run.serve w g).trace = [] := by
  rcases Run.serve_spec w g with ⟨e, h1, h⟩ | ⟨id, e, h1, h2, h⟩ | ⟨id, aid, h1, h2, h3, h⟩ |
    ⟨id, aid, err, h1, h2, h3, h⟩ <;>
  · rw [h]
    simp [Run.initSteps, Run.gatewaySteps, removedFiles]

/-- In a trace made of a part with no `badger.Open` followed by a part with no
`os.Remove`, nothing is removed after an `Open`. -/
theorem removed_before_open (A B : List Step) (hA : ∀ x ∈ A, x.call.isOpen = false)
    (hB : removedFiles B = []) (pre : List Step) (s : Step) (post : List Step)
    (h : A ++ B = pre ++ s :: post) (hs : s.call.isOpen = true) :
    removedFiles post = [] ∧ removedFiles pre = removedFiles (A ++ B) := by
  have hpost : removedFiles post = [] := by
    rcases List.append_eq_append_iff.1 h with ⟨a2, -, hb⟩ | ⟨c2, ha, hd⟩
    · rw [hb, removedFiles_append] at hB
      have h2 := (List.append_eq_nil.1 hB).2
      have h3 : removedFiles (s :: post) = removedFiles [s] ++ removedFiles post :=
        removedFiles_append [s] post
      rw [h3] at h2
      exact (List.append_eq_nil.1 h2).2
    · cases c2 with
      | nil =>
        simp only [List.nil_append] at hd
        rw [← hd] at hB
        have h3 : removedFiles (s :: post) = removedFiles [s] ++ removedFiles post :=
          removedFiles_append [s] post
        rw [h3] at hB
        exact (List.append_eq_nil.1 hB).2
      | cons c rest =>
        simp only [List.cons_append, List.cons.injEq] at hd
        obtain ⟨rfl, -⟩ := hd
        have : s ∈ A := by rw [ha]; simp
        rw [hA s this] at hs
        cases hs
  refine ⟨hpost, ?_⟩
  rw [h, removedFiles_append, show s :: post = [s] ++ post from rfl, removedFiles_append, hpost]
  have : removedFiles [s] = [] := by
    cases hc : s.call <;> simp [hc, Call.isOpen] at hs
    simp [removedFiles, hc]
  rw [this]
  simp

/-- The logger calls and the windows block make no `badger.Open` call. -/
theorem Run.before_open (w : World) (g : Globals) :
    ∀ x ∈ Run.logSteps ++ (Run.cleanup w g).trace, x.call.isOpen = false := by
  intro x hx
  rcases List.mem_append.1 hx with hx | hx
  · simp [Run.logSteps] at hx
    rcases hx with rfl | rfl | rfl | rfl <;> rfl
  · rcases Run.cleanup_calls w g x hx with h | ⟨n, h⟩ <;> simp [h, Call.isOpen]

/-- C7: on windows, when no removal fails, the files `Run` removes are exactly the matches
`filepath.Glob` returned for the pattern `path.Join(DefaultMetadataLocation, "*.vlog")`,
in order and each once; no file is removed after `badger.Open` is called; and on any
other operating system `Run` removes no file. -/
theorem C7_windows_vlog_removal (w : World) (g : Globals) :
    (w.GOOS = "windows" →
      (∀ s ∈ (Run w g).trace, ∀ n, s.call = .osRemove n → s.err = none) →
      removedFiles (Run w g).trace =
        globMatches (w.filepathGlob (w.pathJoin [g.DefaultMetadataLocation, "*.vlog"])) ∧
      (⟨.filepathGlob (w.pathJoin [g.DefaultMetadataLocation, "*.vlog"]),
          errOf (w.filepathGlob (w.pathJoin [g.DefaultMetadataLocation, "*.vlog"]))⟩ : Step) ∈
        (Run w g).trace) ∧
    (∀ pre s post, (Run w g).trace = pre ++ s :: post → s.call.isOpen = true →
      removedFiles post = [] ∧ removedFiles pre = removedFiles (Run w g).trace) ∧
    (w.GOOS ≠ "windows" → removedFiles (Run w g).trace = []) := by
  have hsplit : ∃ B, (Run w g).trace = (Run.logSteps ++ (Run.cleanup w g).trace) ++ B ∧
      removedFiles B = [] := by
    rcases Run_cases w g with ⟨-, h⟩ | ⟨e, -, h⟩
    · exact ⟨(Run.serve w g).trace, by rw [h]; simp, Run.serve_removedFiles w g⟩
    · exact ⟨[], by rw [h]; simp, rfl⟩
  obtain ⟨B, hB, hBr⟩ := hsplit
  have hrem : removedFiles (Run w g).trace = removedFiles (Run.cleanup w g).trace := by
    rw [hB, removedFiles_append, removedFiles_append, hBr, removedFiles_logSteps]
    simp
  refine ⟨?_, ?_, ?_⟩
  · intro hwin hok
    have hok2 : ∀ s ∈ (Run.cleanup w g).trace, ∀ n, s.call = .osRemove n → s.err = none := by
      intro s hs n hc
      exact hok s (by rw [hB]; simp [hs]) n hc
    have hmem : ∀ s ∈ (Run.cleanup w g).trace, s ∈ (Run w g).trace := by
      intro s hs
      rw [hB]; simp [hs]
    rw [hrem]
    rcases Run.cleanup_spec w g with ⟨hne, -⟩ | ⟨-, e, hg, h⟩ | ⟨-, l, hg, h⟩
    · exact absurd hwin hne
    · rw [hg]
      refine ⟨by rw [h]; rfl, hmem _ (by rw [h]; simp [errOf])⟩
    · rw [hg]
      refine ⟨?_, hmem _ (by rw [h]; simp [errOf])⟩
      rcases removeAll_spec w l 0 with ⟨-, ht⟩ | ⟨done, n, rest, e, -, ht, -⟩
      · rw [h, ht]
        show removedFiles ([_] ++ _) = l
        rw [removedFiles_append, removedFiles_map]
        rfl
      · have hbad := hok2 ⟨.osRemove n, some e⟩ (by rw [h, ht]; simp) n rfl
        cases hbad
  · intro pre s post hsp hs
    rw [hB] at hsp ⊢
    exact removed_before_open _ B (Run.before_open w g) hBr pre s post hsp hs
  · intro hne
    rw [hrem]
    rcases Run.cleanup_spec w g with ⟨-, h⟩ | ⟨hwin, -⟩ | ⟨hwin, -⟩
    · rw [h]; rfl
    · exact absurd hwin hne
    · exact absurd hwin hne

/-- C7 at a windows world where `Glob` returns two value log files and both removals
succeed: exactly those two files are removed. -/
theorem C7_windows_vlog_removal_witness :
    removedFiles (Run windowsWorld exampleGlobals).trace = ["000000.vlog", "000001.vlog"] ∧
      (⟨.filepathGlob "/home/u/tv_state/kv/*.vlog", none⟩ : Step) ∈
        (Run windowsWorld exampleGlobals).trace :=
  (C7_windows_vlog_removal windowsWorld exampleGlobals).1 rfl
    (fun s hs _ _ =>
      (by decide : ∀ s ∈ (Run windowsWorld exampleGlobals).trace, s.err = none) s hs)


/-! ## What `Run` builds over the database handle -/

/-- A run of `Run` that reaches `gateway.NewServer`: both handles were obtained, and the
whole trace is known. -/
theorem Run_server_step (w : World) (g : Globals) (s : Step) (r : String) (m b a p : Val)
    (la bd : String) (hs : s ∈ (Run w g).trace) (hc : s.call = .NewServer r m b a p la bd) :
    ∃ id aid lerr, w.badgerOpen (.DefaultOptions g.DefaultMetadataLocation) = .ok id ∧
      w.NewLocalFSAdapter g.DefaultBlockLocation = .ok aid ∧
      m = .KVIndex (.KVStore (.DB id)) ∧ b = .Adapter aid ∧ a = .KVAuthService (.DB id) ∧
      p = .KVMultipartManager (.KVStore (.DB id)) ∧
      s = ⟨.NewServer "us-east-1" (.KVIndex (.KVStore (.DB id))) (.Adapter aid)
        (.KVAuthService (.DB id)) (.KVMultipartManager (.KVStore (.DB id)))
        "0.0.0.0:8000" "s3.local:8000", none⟩ ∧
      (Run w g).trace = Run.logSteps ++ ((Run.cleanup w g).trace ++
        (Run.initSteps g id ++ (Run.gatewaySteps g id aid ++
          [⟨.Listen (Run.server id aid), lerr⟩]))) := by
  have hnot : ∀ x ∈ Run.logSteps ++ (Run.cleanup w g).trace,
      x.call ≠ .NewServer r m b a p la bd := by
    intro x hx
    rcases List.mem_append.1 hx with hx | hx
    · simp [Run.logSteps] at hx
      rcases hx with rfl | rfl | rfl | rfl <;> simp
    · rcases Run.cleanup_calls w g x hx with h | ⟨n, h⟩ <;> simp [h]
  rcases Run_cases w g with ⟨-, h⟩ | ⟨e, -, h⟩
  · rw [h] at hs ⊢
    simp only [List.mem_append] at hs
    have hs2 : s ∈ (Run.serve w g).trace := by
      rcases hs with hs | hs | hs
      · exact absurd hc (hnot s (List.mem_append.2 (Or.inl hs)))
      · exact absurd hc (hnot s (List.mem_append.2 (Or.inr hs)))
      · exact hs
    rcases Run.serve_spec w g with ⟨e, h1, h'⟩ | ⟨id, e, h1, h2, h'⟩ |
      ⟨id, aid, h1, h2, h3, h'⟩ | ⟨id, aid, err, h1, h2, h3, h'⟩
    · rw [h'] at hs2
      simp at hs2
      subst hs2
      simp at hc
    · rw [h'] at hs2
      simp [Run.initSteps] at hs2
      rcases hs2 with rfl | rfl | rfl | rfl | rfl | rfl <;> simp at hc
    · rw [h'] at hs2 ⊢
      refine ⟨id, aid, none, h1, h2, ?_⟩
      simp [Run.initSteps, Run.gatewaySteps] at hs2
      rcases hs2 with rfl | rfl | rfl | rfl | rfl | rfl | rfl | rfl | rfl <;> simp at hc
      obtain ⟨-, rfl, rfl, rfl, rfl, -, -⟩ := hc
      simp
    · rw [h'] at hs2 ⊢
      refine ⟨id, aid, err, h1, h2, ?_⟩
      simp [Run.initSteps, Run.gatewaySteps] at hs2
      rcases hs2 with rfl | rfl | rfl | rfl | rfl | rfl | rfl | rfl | rfl <;> simp at hc
      obtain ⟨-, rfl, rfl, rfl, rfl, -, -⟩ := hc
      simp
  · rw [h] at hs
    exact absurd hc (hnot s hs)


/-- The logger calls and the windows block take no symbolic value. -/
theorem Run.before_open_args (w : World) (g : Globals) :
    ∀ x ∈ Run.logSteps ++ (Run.cleanup w g).trace, x.call.args = [] := by
  intro x hx
  rcases List.mem_append.1 hx with hx | hx
  · simp [Run.logSteps] at hx
    rcases hx with rfl | rfl | rfl | rfl <;> rfl
  · rcases Run.cleanup_calls w g x hx with h | ⟨n, h⟩ <;> simp [h, Call.args]

/-- C2: the index `Run` passes to `gateway.NewServer` is `index.NewKVIndex` of
`store.NewKVStore` of the database handle, a function of that handle alone; the block
store adapter and the auth service are no input to it nor to any `NewKVIndex` call, and
the only call that receives either of them is that `NewServer` call. -/
theorem C2_index_depends_only_on_store (w : World) (g : Globals) (s : Step) (r : String)
    (m b a p : Val) (la bd : String) (hs : s ∈ (Run w g).trace)
    (hc : s.call = .NewServer r m b a p la bd) :
    (∃ id, w.badgerOpen (.DefaultOptions g.DefaultMetadataLocation) = .ok id ∧
      m = .KVIndex (.KVStore (.DB id))) ∧
    b.isInputOf m = false ∧ a.isInputOf m = false ∧ b ≠ m ∧ a ≠ m ∧
    (∀ s2 ∈ (Run w g).trace, ∀ x, s2.call = .NewKVIndex x →
      Val.KVIndex x = m ∧ x ≠ b ∧ x ≠ a ∧ b.isInputOf x = false ∧ a.isInputOf x = false) ∧
    (∀ s2 ∈ (Run w g).trace, (b ∈ s2.call.args ∨ a ∈ s2.call.args) → s2 = s) := by
  obtain ⟨id, aid, lerr, h1, h2, rfl, rfl, rfl, rfl, rfl, ht⟩ :=
    Run_server_step w g s r m b a p la bd hs hc
  refine ⟨⟨id, h1, rfl⟩, by simp [Val.isInputOf], by simp [Val.isInputOf], by simp, by simp,
    ?_, ?_⟩
  · intro s2 hs2 x hx
    rw [ht, ← List.append_assoc] at hs2
    rcases List.mem_append.1 hs2 with hs2 | hs2
    · have := Run.before_open_args w g s2 hs2
      rw [hx] at this
      simp [Call.args] at this
    · simp [Run.initSteps, Run.gatewaySteps] at hs2
      rcases hs2 with rfl | rfl | rfl | rfl | rfl | rfl | rfl | rfl | rfl <;> simp at hx
      subst hx
      simp [Val.isInputOf]
  · intro s2 hs2 hx
    rw [ht, ← List.append_assoc] at hs2
    rcases List.mem_append.1 hs2 with hs2 | hs2
    · rw [Run.before_open_args w g s2 hs2] at hx
      simp at hx
    · simp [Run.initSteps, Run.gatewaySteps] at hs2
      rcases hs2 with rfl | rfl | rfl | rfl | rfl | rfl | rfl | rfl | rfl <;>
        simp [Call.args, Run.server] at hx ⊢

/-- C2 at a world where everything succeeds: the index handed to the server is built
over database handle 7 only. -/
theorem C2_index_depends_only_on_store_witness :
    (∃ id, exampleWorld.badgerOpen (.DefaultOptions exampleGlobals.DefaultMetadataLocation) =
        .ok id ∧ Val.KVIndex (.KVStore (.DB 7)) = .KVIndex (.KVStore (.DB id))) ∧
    (Val.Adapter 9).isInputOf (.KVIndex (.KVStore (.DB 7))) = false ∧
    (Val.KVAuthService (.DB 7)).isInputOf (.KVIndex (.KVStore (.DB 7))) = false :=
  have h := C2_index_depends_only_on_store exampleWorld exampleGlobals
    ⟨.NewServer "us-east-1" (.KVIndex (.KVStore (.DB 7))) (.Adapter 9) (.KVAuthService (.DB 7))
      (.KVMultipartManager (.KVStore (.DB 7))) "0.0.0.0:8000" "s3.local:8000", none⟩
    "us-east-1" (.KVIndex (.KVStore (.DB 7))) (.Adapter 9) (.KVAuthService (.DB 7))
    (.KVMultipartManager (.KVStore (.DB 7))) "0.0.0.0:8000" "s3.local:8000" (by decide) rfl
  ⟨h.1, h.2.1, h.2.2.1⟩

/-- C3, as stated, fails: at a world where everything succeeds, `Run` passes
`gateway.NewServer` a multipart manager of which the index and the block store adapter
passed alongside it are not both inputs. -/
theorem C3_mpu_inputs_refuted :
    ¬ (∀ s ∈ (Run exampleWorld exampleGlobals).trace, ∀ r m b a p la bd,
        s.call = .NewServer r m b a p la bd →
          m.isInputOf p = true ∧ b.isInputOf p = true) := by
  intro h
  have h2 := h ⟨.NewServer "us-east-1" (.KVIndex (.KVStore (.DB 7))) (.Adapter 9)
      (.KVAuthService (.DB 7)) (.KVMultipartManager (.KVStore (.DB 7)))
      "0.0.0.0:8000" "s3.local:8000", none⟩ (by decide) _ _ _ _ _ _ _ rfl
  revert h2
  decide

/-- C3, amended: the multipart manager `Run` passes to `gateway.NewServer` is
`index.NewKVMultipartManager` of `store.NewKVStore` of the database handle; its only
inputs are that store and that handle, so neither the index built by `index.NewKVIndex`
nor the adapter built by `block.NewLocalFSAdapter`, both passed to the same `NewServer`
call, is an input to its construction. -/
theorem C3_mpu_depends_only_on_store (w : World) (g : Globals) (s : Step) (r : String)
    (m b a p : Val) (la bd : String) (hs : s ∈ (Run w g).trace)
    (hc : s.call = .NewServer r m b a p la bd) :
    ∃ id aid, w.badgerOpen (.DefaultOptions g.DefaultMetadataLocation) = .ok id ∧
      w.NewLocalFSAdapter g.DefaultBlockLocation = .ok aid ∧
      p = .KVMultipartManager (.KVStore (.DB id)) ∧
      (∀ y : Val, y.isInputOf p = true ↔ (y = .KVStore (.DB id) ∨ y = .DB id)) ∧
      m = .KVIndex (.KVStore (.DB id)) ∧ b = .Adapter aid ∧
      m.isInputOf p = false ∧ b.isInputOf p = false := by
  obtain ⟨id, aid, lerr, h1, h2, rfl, rfl, rfl, rfl, rfl, ht⟩ :=
    Run_server_step w g s r m b a p la bd hs hc
  refine ⟨id, aid, h1, h2, rfl, ?_, rfl, rfl, by simp [Val.isInputOf], by simp [Val.isInputOf]⟩
  intro y
  simp only [Val.isInputOf, Bool.or_false, Bool.or_eq_true, beq_iff_eq]
  constructor <;> rintro (h | h)
  · exact Or.inl h.symm
  · exact Or.inr h.symm
  · exact Or.inl h.symm
  · exact Or.inr h.symm

/-- C3, amended, at a world where everything succeeds. -/
theorem C3_mpu_depends_only_on_store_witness :
    ∃ id aid, exampleWorld.badgerOpen (.DefaultOptions exampleGlobals.DefaultMetadataLocation) =
        .ok id ∧
      exampleWorld.NewLocalFSAdapter exampleGlobals.DefaultBlockLocation = .ok aid ∧
      Val.KVMultipartManager (.KVStore (.DB 7)) = .KVMultipartManager (.KVStore (.DB id)) ∧
      (∀ y : Val, y.isInputOf (Val.KVMultipartManager (.KVStore (.DB 7))) = true ↔
        (y = .KVStore (.DB id) ∨ y = .DB id)) ∧
      Val.KVIndex (.KVStore (.DB 7)) = .KVIndex (.KVStore (.DB id)) ∧
      Val.Adapter 9 = .Adapter aid ∧
      (Val.KVIndex (.KVStore (.DB 7))).isInputOf (Val.KVMultipartManager (.KVStore (.DB 7))) =
        false ∧
      (Val.Adapter 9).isInputOf (Val.KVMultipartManager (.KVStore (.DB 7))) = false :=
  C3_mpu_depends_only_on_store exampleWorld exampleGlobals
    ⟨.NewServer "us-east-1" (.KVIndex (.KVStore (.DB 7))) (.Adapter 9) (.KVAuthService (.DB 7))
      (.KVMultipartManager (.KVStore (.DB 7))) "0.0.0.0:8000" "s3.local:8000", none⟩
    "us-east-1" (.KVIndex (.KVStore (.DB 7))) (.Adapter 9) (.KVAuthService (.DB 7))
    (.KVMultipartManager (.KVStore (.DB 7))) "0.0.0.0:8000" "s3.local:8000" (by decide) rfl


/-! ## The single metadata store -/

theorem createCreds_open_default (w : World) (g : Globals) :
    ∀ s ∈ (createCreds w g).trace, ∀ opts, s.call = .badgerOpen opts →
      opts = .DefaultOptions g.DefaultMetadataLocation := by
  rcases createCreds_spec w g with ⟨e, h1, h⟩ | ⟨id, h1, ⟨e, h2, h⟩ | ⟨h2, ⟨e, h3, h⟩ |
    ⟨h3, ⟨e, h4, h⟩ | ⟨h4, ⟨e, h5, h⟩ | ⟨creds, h5, h⟩⟩⟩⟩⟩ <;>
  · rw [h]
    simp [createCreds.openSteps, eq_comm]

theorem keys_open_default (w : World) (g : Globals) :
    ∀ s ∈ (keys w g).trace, ∀ opts, s.call = .badgerOpen opts →
      opts = .DefaultOptions g.DefaultMetadataLocation := by
  have hcb : ∀ x ∈ keys.callbackSteps w, ∀ o, x.call ≠ .badgerOpen o := by
    intro x hx n
    simp only [keys.callbackSteps, List.mem_cons, List.mem_append, List.mem_singleton,
      List.not_mem_nil, or_false] at hx
    rcases hx with rfl | hx | rfl
    · simp
    · obtain ⟨f, a, hc⟩ := (printKeys_spec w w.dbKeys 0).2 x hx
      simp [hc]
    · simp
  intro s hs opts hc
  rcases keys_spec w g with ⟨e, h1, h⟩ | ⟨id, h1, ⟨e, h2, h⟩ | ⟨h2, ⟨e, h3, h⟩ | ⟨h3, h⟩⟩⟩
  · rw [h] at hs
    simp only [List.mem_singleton] at hs
    subst hs
    simpa [eq_comm] using hc
  all_goals
    rw [h] at hs
    rcases List.mem_cons.1 hs with rfl | hs
    · simpa [eq_comm] using hc
    rcases List.mem_append.1 hs with hs | hs
    · exact absurd hc (hcb s hs opts)
    simp only [List.mem_cons, List.mem_singleton, List.not_mem_nil, or_false] at hs
    rcases hs with rfl | rfl <;> simp at hc

theorem Run.serve_open_default (w : World) (g : Globals) :
    ∀ s ∈ (Run.serve w g).trace, ∀ opts, s.call = .badgerOpen opts →
      opts = .DefaultOptions g.DefaultMetadataLocation := by
  rcases Run.serve_spec w g with ⟨e, h1, h⟩ | ⟨id, e, h1, h2, h⟩ | ⟨id, aid, h1, h2, h3, h⟩ |
    ⟨id, aid, err, h1, h2, h3, h⟩ <;>
  · rw [h]
    simp [Run.initSteps, Run.gatewaySteps, eq_comm]

theorem Run_open_default (w : World) (g : Globals) :
    ∀ s ∈ (Run w g).trace, ∀ opts, s.call = .badgerOpen opts →
      opts = .DefaultOptions g.DefaultMetadataLocation := by
  intro s hs opts hc
  rcases Run_mem w g s hs with hs | hs | ⟨-, hs, -⟩
  · have := Run.before_open w g s (List.mem_append.2 (Or.inl hs))
    simp [hc, Call.isOpen] at this
  · have := Run.before_open w g s (List.mem_append.2 (Or.inr hs))
    simp [hc, Call.isOpen] at this
  · exact Run.serve_open_default w g s hs opts hc

theorem Run.serve_count_open (w : World) (g : Globals) :
    (Run.serve w g).trace.countP (fun s => s.call.isOpen) = 1 := by
  rcases Run.serve_spec w g with ⟨e, h1, h⟩ | ⟨id, e, h1, h2, h⟩ | ⟨id, aid, h1, h2, h3, h⟩ |
    ⟨id, aid, err, h1, h2, h3, h⟩ <;>
  · rw [h]
    simp [Run.initSteps, Run.gatewaySteps, Call.isOpen, List.countP_cons]

theorem Run.before_count_open (w : World) (g : Globals) :
    (Run.logSteps ++ (Run.cleanup w g).trace).countP (fun s => s.call.isOpen) = 0 := by
  rw [List.countP_eq_zero]
  intro x hx
  simp [Run.before_open w g x hx]

/-- What every step of the rest of `Run` that takes a symbolic value is built over. -/
theorem Run.serve_over_db (w : World) (g : Globals) :
    ∀ s ∈ (Run.serve w g).trace, s.call.args ≠ [] →
      ∃ id, w.badgerOpen (.DefaultOptions g.DefaultMetadataLocation) = .ok id ∧
        (∀ x, s.call = .NewKVStore x → x = .DB id) ∧
        (∀ x, s.call = .NewKVIndex x → x = .KVStore (.DB id)) ∧
        (∀ x, s.call = .NewKVMultipartManager x → x = .KVStore (.DB id)) ∧
        (∀ x, s.call = .NewKVAuthService x → x = .DB id) ∧
        (∀ r m b a p la bd, s.call = .NewServer r m b a p la bd →
          m = .KVIndex (.KVStore (.DB id)) ∧ a = .KVAuthService (.DB id) ∧
          p = .KVMultipartManager (.KVStore (.DB id))) := by
  rcases Run.serve_spec w g with ⟨e, h1, h⟩ | ⟨id, e, h1, h2, h⟩ | ⟨id, aid, h1, h2, h3, h⟩ |
    ⟨id, aid, err, h1, h2, h3, h⟩
  · rw [h]
    simp [Call.args]
  · rw [h]
    intro s hs _
    refine ⟨id, h1, ?_⟩
    revert s
    simp [Run.initSteps]
  all_goals
    rw [h]
    intro s hs _
    refine ⟨id, h1, ?_⟩
    revert s
    simp [Run.initSteps, Run.gatewaySteps]
    rintro - r m b a p la bd - rfl - rfl rfl - -
    exact ⟨rfl, rfl, rfl⟩


/-- The opens of the three functions, the number of opens of `Run`, and what the steps of
`Run` that take a value are built over. -/
theorem Run_single_store (w : World) (g : Globals) :
    (∀ s opts, (s ∈ (createCreds w g).trace ∨ s ∈ (Run w g).trace ∨ s ∈ (keys w g).trace) →
      s.call = .badgerOpen opts → opts = .DefaultOptions g.DefaultMetadataLocation) ∧
    (Run w g).trace.countP (fun s => s.call.isOpen) ≤ 1 ∧
    (w.GOOS ≠ "windows" → (Run w g).trace.countP (fun s => s.call.isOpen) = 1) ∧
    ((Run w g).trace.countP (fun s => s.call.isOpen) = 0 →
      w.GOOS = "windows" ∧ ∃ e, (Run w g).outcome = .panicked (.value (some e))) ∧
    (∀ s ∈ (Run w g).trace, s.call.args ≠ [] →
      (Run w g).trace.countP (fun s => s.call.isOpen) = 1 ∧
      ∃ id, w.badgerOpen (.DefaultOptions g.DefaultMetadataLocation) = .ok id ∧
        (∀ x, s.call = .NewKVStore x → x = .DB id) ∧
        (∀ x, s.call = .NewKVIndex x → x = .KVStore (.DB id)) ∧
        (∀ x, s.call = .NewKVMultipartManager x → x = .KVStore (.DB id)) ∧
        (∀ x, s.call = .NewKVAuthService x → x = .DB id) ∧
        (∀ r m b a p la bd, s.call = .NewServer r m b a p la bd →
          m = .KVIndex (.KVStore (.DB id)) ∧ a = .KVAuthService (.DB id) ∧
          p = .KVMultipartManager (.KVStore (.DB id)))) := by
  have hcount : ((Run.cleanup w g).outcome = .returned () ∧
        (Run w g).trace.countP (fun s => s.call.isOpen) = 1) ∨
      (∃ e, (Run.cleanup w g).outcome = .panicked (.value (some e)) ∧
        (Run w g).outcome = .panicked (.value (some e)) ∧
        (Run w g).trace.countP (fun s => s.call.isOpen) = 0) := by
    rcases Run_cases w g with ⟨ho, h⟩ | ⟨e, ho, h⟩
    · left
      refine ⟨ho, ?_⟩
      rw [h, ← List.append_assoc, List.countP_append, Run.before_count_open,
        Run.serve_count_open]
    · right
      refine ⟨e, ho, by rw [h], ?_⟩
      rw [h]
      exact Run.before_count_open w g
  refine ⟨?_, ?_, ?_, ?_, ?_⟩
  · rintro s opts (hs | hs | hs) hc
    · exact createCreds_open_default w g s hs opts hc
    · exact Run_open_default w g s hs opts hc
    · exact keys_open_default w g s hs opts hc
  · rcases hcount with ⟨-, h⟩ | ⟨e, -, -, h⟩ <;> omega
  · intro hne
    rcases hcount with ⟨-, h⟩ | ⟨e, ho, -, -⟩
    · exact h
    · rcases Run.cleanup_spec w g with ⟨-, hc⟩ | ⟨hwin, -⟩ | ⟨hwin, -⟩
      · rw [hc] at ho; cases ho
      · exact absurd hwin hne
      · exact absurd hwin hne
  · intro h0
    rcases hcount with ⟨-, h⟩ | ⟨e, ho, hout, -⟩
    · omega
    · refine ⟨?_, e, hout⟩
      rcases Run.cleanup_spec w g with ⟨-, hc⟩ | ⟨hwin, -⟩ | ⟨hwin, -⟩
      · rw [hc] at ho; cases ho
      · exact hwin
      · exact hwin
  · intro s hs hargs
    rcases Run_mem w g s hs with hs | hs | ⟨ho, hs, -⟩
    · exact absurd (Run.before_open_args w g s (List.mem_append.2 (Or.inl hs))) hargs
    · exact absurd (Run.before_open_args w g s (List.mem_append.2 (Or.inr hs))) hargs
    · refine ⟨?_, Run.serve_over_db w g s hs hargs⟩
      rcases hcount with ⟨-, h⟩ | ⟨e, ho2, -, -⟩
      · exact h
      · rw [ho] at ho2; cases ho2

/-- The part of `Run` from `badger.Open` on makes no `filepath.Glob` or `os.Remove` call. -/
theorem Run.serve_no_glob_remove (w : World) (g : Globals) :
    ∀ s ∈ (Run.serve w g).trace,
      (∀ p, s.call ≠ .filepathGlob p) ∧ (∀ n, s.call ≠ .osRemove n) := by
  rcases Run.serve_spec w g with ⟨e, h1, h⟩ | ⟨id, e, h1, h2, h⟩ | ⟨id, aid, h1, h2, h3, h⟩ |
    ⟨id, aid, err, h1, h2, h3, h⟩ <;>
  · rw [h]
    simp [Run.initSteps, Run.gatewaySteps]

/-- `Run` makes no `badger.Open` call exactly when a `filepath.Glob` or `os.Remove` step
of the windows block returned an error. -/
theorem Run_count_open_zero_iff (w : World) (g : Globals) :
    (Run w g).trace.countP (fun s => s.call.isOpen) = 0 ↔
      ∃ s ∈ (Run w g).trace, ∃ e, s.err = some e ∧
        (s.call = .filepathGlob (w.pathJoin [g.DefaultMetadataLocation, "*.vlog"]) ∨
          ∃ n, s.call = .osRemove n) := by
  rcases Run_cases w g with ⟨ho, h⟩ | ⟨e, ho, h⟩
  · have hc : (Run w g).trace.countP (fun s => s.call.isOpen) = 1 := by
      rw [h, ← List.append_assoc, List.countP_append, Run.before_count_open,
        Run.serve_count_open]
    constructor
    · intro h0
      omega
    · rintro ⟨s, hs, e, he, hcall⟩
      exfalso
      rcases Run_mem w g s hs with hs | hs | ⟨-, hs, -⟩
      · simp [Run.logSteps] at hs
        rcases hs with rfl | rfl | rfl | rfl <;> simp at he
      · rcases Run.cleanup_shape w g with ⟨-, hq⟩ | ⟨t, x, e2, -, -, -, ho2⟩
        · rw [hq s hs] at he
          cases he
        · rw [ho] at ho2
          cases ho2
      · obtain ⟨hg, hr⟩ := Run.serve_no_glob_remove w g s hs
        rcases hcall with hcall | ⟨n, hcall⟩
        · exact hg _ hcall
        · exact hr n hcall
  · have hc : (Run w g).trace.countP (fun s => s.call.isOpen) = 0 := by
      rw [h]
      exact Run.before_count_open w g
    constructor
    · intro _
      rcases Run.cleanup_shape w g with ⟨ho2, -⟩ | ⟨t, x, e2, ht, -, hx, -⟩
      · rw [ho] at ho2
        cases ho2
      · have hxm : x ∈ (Run.cleanup w g).trace := by rw [ht]; simp
        refine ⟨x, ?_, e2, hx, Run.cleanup_calls w g x hxm⟩
        rw [h]
        exact List.mem_append.2 (Or.inr hxm)
    · intro _
      exact hc

/-- A run of `Run` that opens the database successfully constructs the index and the
multipart manager over the handle, and, when the block store adapter is created too,
the auth service and the gateway server. -/
theorem Run_constructs (w : World) (g : Globals) (id : Nat)
    (h1 : w.badgerOpen (.DefaultOptions g.DefaultMetadataLocation) = .ok id)
    (hc : (Run w g).trace.countP (fun s => s.call.isOpen) = 1) :
    (⟨.NewKVIndex (.KVStore (.DB id)), none⟩ : Step) ∈ (Run w g).trace ∧
    (⟨.NewKVMultipartManager (.KVStore (.DB id)), none⟩ : Step) ∈ (Run w g).trace ∧
    (∀ aid, w.NewLocalFSAdapter g.DefaultBlockLocation = .ok aid →
      (⟨.NewKVAuthService (.DB id), none⟩ : Step) ∈ (Run w g).trace ∧
      (⟨.NewServer "us-east-1" (.KVIndex (.KVStore (.DB id))) (.Adapter aid)
        (.KVAuthService (.DB id)) (.KVMultipartManager (.KVStore (.DB id)))
        "0.0.0.0:8000" "s3.local:8000", none⟩ : Step) ∈ (Run w g).trace) := by
  rcases Run_cases w g with ⟨-, h⟩ | ⟨e, -, h⟩
  · rw [h]
    rcases Run.serve_spec w g with ⟨e2, h1', h'⟩ | ⟨id2, e2, h1', h2, h'⟩ |
      ⟨id2, aid2, h1', h2, h3, h'⟩ | ⟨id2, aid2, err, h1', h2, h3, h'⟩
    · rw [h1] at h1'
      cases h1'
    all_goals
      rw [h1] at h1'
      cases h1'
      rw [h']
      refine ⟨by simp [Run.initSteps], by simp [Run.initSteps], ?_⟩
      intro aid ha
      rw [h2] at ha
      cases ha
      try exact ⟨by simp [Run.gatewaySteps], by simp [Run.gatewaySteps]⟩
  · exfalso
    rw [h, Run.before_count_open] at hc
    cases hc

/-- C1, as stated, fails: on windows with a locked value log file the second `os.Remove`
fails and `Run` panics before `badger.Open`, so it is not the case that every open uses
the default options at `DefaultMetadataLocation`, `Run` opens the database exactly once,
and what `Run` constructs is over that handle: the database is opened zero times. -/
theorem C1_opened_exactly_once_refuted :
    ¬ ((∀ s opts, (s ∈ (createCreds lockedVlogWorld exampleGlobals).trace ∨
          s ∈ (Run lockedVlogWorld exampleGlobals).trace ∨
          s ∈ (keys lockedVlogWorld exampleGlobals).trace) →
        s.call = .badgerOpen opts →
          opts = .DefaultOptions exampleGlobals.DefaultMetadataLocation) ∧
      (Run lockedVlogWorld exampleGlobals).trace.countP (fun s => s.call.isOpen) = 1 ∧
      (∀ s ∈ (Run lockedVlogWorld exampleGlobals).trace, ∀ x,
        (s.call = .NewKVIndex x ∨ s.call = .NewKVMultipartManager x →
          ∃ id, lockedVlogWorld.badgerOpen
              (.DefaultOptions exampleGlobals.DefaultMetadataLocation) = .ok id ∧
            x = .KVStore (.DB id)) ∧
        (s.call = .NewKVAuthService x →
          ∃ id, lockedVlogWorld.badgerOpen
              (.DefaultOptions exampleGlobals.DefaultMetadataLocation) = .ok id ∧
            x = .DB id))) := by
  rintro ⟨-, h, -⟩
  revert h
  decide

/-- C1, amended: every `badger.Open` call of `createCreds`, `Run` and `keys` opens
`DefaultMetadataLocation` with default options.  `Run` opens the database at most once:
exactly once on every run that gets past the windows value-log cleanup (so always when
the operating system is not windows), and not at all exactly when a `filepath.Glob` or
`os.Remove` call failed there, `Run` then having panicked with an error.  Every step of
`Run` that takes a value is built over the one handle the open returned, and on every
run that opens the database successfully the index and the multipart manager are
constructed over that handle, as are, once the block store adapter is created, the
auth service and the gateway server that receives all three. -/
theorem C1_single_store_opened_at_most_once (w : World) (g : Globals) :
    (∀ s opts, (s ∈ (createCreds w g).trace ∨ s ∈ (Run w g).trace ∨ s ∈ (keys w g).trace) →
      s.call = .badgerOpen opts → opts = .DefaultOptions g.DefaultMetadataLocation) ∧
    ((Run w g).trace.countP (fun s => s.call.isOpen) = 1 ∨
      (Run w g).trace.countP (fun s => s.call.isOpen) = 0) ∧
    (w.GOOS ≠ "windows" → (Run w g).trace.countP (fun s => s.call.isOpen) = 1) ∧
    ((Run w g).trace.countP (fun s => s.call.isOpen) = 0 ↔
      ∃ s ∈ (Run w g).trace, ∃ e, s.err = some e ∧
        (s.call = .filepathGlob (w.pathJoin [g.DefaultMetadataLocation, "*.vlog"]) ∨
          ∃ n, s.call = .osRemove n)) ∧
    ((Run w g).trace.countP (fun s => s.call.isOpen) = 0 →
      w.GOOS = "windows" ∧ ∃ e, (Run w g).outcome = .panicked (.value (some e))) ∧
    (∀ s ∈ (Run w g).trace, s.call.args ≠ [] →
      (Run w g).trace.countP (fun s => s.call.isOpen) = 1 ∧
      ∃ id, w.badgerOpen (.DefaultOptions g.DefaultMetadataLocation) = .ok id ∧
        (∀ x, s.call = .NewKVStore x → x = .DB id) ∧
        (∀ x, s.call = .NewKVIndex x → x = .KVStore (.DB id)) ∧
        (∀ x, s.call = .NewKVMultipartManager x → x = .KVStore (.DB id)) ∧
        (∀ x, s.call = .NewKVAuthService x → x = .DB id) ∧
        (∀ r m b a p la bd, s.call = .NewServer r m b a p la bd →
          m = .KVIndex (.KVStore (.DB id)) ∧ a = .KVAuthService (.DB id) ∧
          p = .KVMultipartManager (.KVStore (.DB id)))) ∧
    (∀ id, w.badgerOpen (.DefaultOptions g.DefaultMetadataLocation) = .ok id →
      (Run w g).trace.countP (fun s => s.call.isOpen) = 1 →
      (⟨.NewKVIndex (.KVStore (.DB id)), none⟩ : Step) ∈ (Run w g).trace ∧
      (⟨.NewKVMultipartManager (.KVStore (.DB id)), none⟩ : Step) ∈ (Run w g).trace ∧
      (∀ aid, w.NewLocalFSAdapter g.DefaultBlockLocation = .ok aid →
        (⟨.NewKVAuthService (.DB id), none⟩ : Step) ∈ (Run w g).trace ∧
        (⟨.NewServer "us-east-1" (.KVIndex (.KVStore (.DB id))) (.Adapter aid)
          (.KVAuthService (.DB id)) (.KVMultipartManager (.KVStore (.DB id)))
          "0.0.0.0:8000" "s3.local:8000", none⟩ : Step) ∈ (Run w g).trace)) := by
  obtain ⟨hopen, hle, hoff, hzero, hover⟩ := Run_single_store w g
  refine ⟨hopen, ?_, hoff, Run_count_open_zero_iff w g, hzero, hover,
    fun id h1 hc => Run_constructs w g id h1 hc⟩
  omega

/-- C1, amended, at a world where everything succeeds, off windows: `Run` opens the
database once, and the index, the multipart manager, the auth service and the gateway
server are constructed over handle 7, the one the open returned. -/
theorem C1_single_store_opened_at_most_once_witness :
    (Run exampleWorld exampleGlobals).trace.countP (fun s => s.call.isOpen) = 1 ∧
    (⟨.NewKVIndex (.KVStore (.DB 7)), none⟩ : Step) ∈ (Run exampleWorld exampleGlobals).trace ∧
    (⟨.NewKVMultipartManager (.KVStore (.DB 7)), none⟩ : Step) ∈
      (Run exampleWorld exampleGlobals).trace ∧
    (⟨.NewKVAuthService (.DB 7), none⟩ : Step) ∈ (Run exampleWorld exampleGlobals).trace ∧
    (⟨.NewServer "us-east-1" (.KVIndex (.KVStore (.DB 7))) (.Adapter 9)
      (.KVAuthService (.DB 7)) (.KVMultipartManager (.KVStore (.DB 7)))
      "0.0.0.0:8000" "s3.local:8000", none⟩ : Step) ∈ (Run exampleWorld exampleGlobals).trace :=
  have h := C1_single_store_opened_at_most_once exampleWorld exampleGlobals
  have hc := h.2.2.1 (by decide)
  have hb := h.2.2.2.2.2.2 7 rfl hc
  ⟨hc, hb.1, hb.2.1, (hb.2.2 9 rfl).1, (hb.2.2 9 rfl).2⟩

end LakeFS
